import Mathlib

/-!
Verification of the `solution-guide-generator` service.

Text is modelled as `List Char` (`Str`), the character sequence underlying a
Python `str`.  Each definition below is a direct transcription of a function
of the repository (paths refer to `src/solution-guide-generator`); Python's
string primitives (`split`, `strip`, `lower`, `startswith`, substring `in`,
`replace`) are given explicit recursive definitions with the same semantics.
-/

abbrev Str := List Char

/-- Coercion from a Lean string literal to the character-list model. -/
def str (s : String) : Str := s.toList

/-- Whitespace test used by Python's `str.strip()` (the characters that occur
in this code base are the ASCII ones: space, tab, newline, carriage return). -/
def wsp (c : Char) : Bool := c = ' ' || c = '\t' || c = '\n' || c = '\r'

/-- Python `s.lstrip()`: drop the maximal whitespace prefix. -/
def lstrip (s : Str) : Str := s.dropWhile wsp

/-- Python `s.rstrip()`: drop the maximal whitespace suffix. -/
def rstrip (s : Str) : Str := (s.reverse.dropWhile wsp).reverse

/-- Python `s.strip()`: drop whitespace at both ends. -/
def pstrip (s : Str) : Str := rstrip (lstrip s)

/-- Python `s.lower()`. -/
def lower (s : Str) : Str := s.map Char.toLower

/-- Python `s.split(sep)` for a one-character separator: the list of chunks
between occurrences of `sep`; always non-empty, chunks may be empty. -/
def splitOnChar (sep : Char) : Str → List Str
  | [] => [[]]
  | c :: cs =>
    if c = sep then [] :: splitOnChar sep cs
    else
      match splitOnChar sep cs with
      | [] => [[c]]
      | l :: ls => (c :: l) :: ls

/-- Python `sep.join(parts)`. -/
def joinWith (sep : Str) : List Str → Str
  | [] => []
  | [l] => l
  | l :: ls => l ++ sep ++ joinWith sep ls

/-- Python substring containment `needle in hay`. -/
def inStr (needle hay : Str) : Bool :=
  match hay with
  | [] => needle.isEmpty
  | _ :: t => needle.isPrefixOf hay || inStr needle t

/-- Python `text.replace("\n\n\n", "\n\n")`: one left-to-right pass replacing
each non-overlapping occurrence of three newlines by two (scanning resumes
after the replacement, so a run of four newlines leaves three). -/
def collapse : Str → Str
  | '\n' :: '\n' :: '\n' :: rest => '\n' :: '\n' :: collapse rest
  | c :: cs => c :: collapse cs
  | [] => []

/-! ## Use-case extraction
`app/services/guide_generator.py`, `GuideGenerator._extract_use_case`. -/

/-- The fixed keyword list of `_extract_use_case` (source order, including the
upper-case entry `"API"` exactly as written in the Python list). -/
def use_case_keywords : List Str :=
  [str "payment", str "transaction", str "bank", str "financial",
   str "integration", str "API", str "platform", str "system",
   str "application", str "service"]

/-- Keywords found in one candidate sentence: `[kw for kw in use_case_keywords
if kw in sentence_lower]` where `sentence_lower = sentence.lower()`. -/
def matchingKeywords (sentence : Str) : List Str :=
  use_case_keywords.filter (fun kw => inStr kw (lower sentence))

/-- Fallback result of `_extract_use_case`. -/
def defaultUseCase : Str := str "financial technology integration"

/-- Transcription of `GuideGenerator._extract_use_case` (guide_generator.py
lines 193-248): start from the optional additional context, split the
transcript on periods, keep among the first 20 sentences those containing a
keyword (stripped), append at most 3 of them, join with spaces, and fall back
to `defaultUseCase` when nothing was collected. -/
def extract_use_case (transcript : Str) (additional_context : Option Str) : Str :=
  let parts0 : List Str :=
    match additional_context with
    | some ac => [ac]
    | none => []
  let sentences := splitOnChar '.' transcript
  let relevant_sentences :=
    ((sentences.take 20).filter (fun s => !(matchingKeywords s).isEmpty)).map pstrip
  let use_case_parts := parts0 ++ relevant_sentences.take 3
  if use_case_parts.isEmpty then defaultUseCase
  else joinWith [' '] use_case_parts

/-! ## Guide post-processing
`app/services/guide_generator.py`, `GuideGenerator._post_process_guide`.
The Python body is wrapped in `try/except` returning the raw guide on
failure; every operation it performs is total, so the transcription is the
plain composition of its steps. -/

/-- The required section markers checked (for observability only) by
`_post_process_guide`. -/
def required_sections : List Str :=
  [str "Solutions Guide", str "What You're Building", str "Integration",
   str "Technical", str "Getting Started"]

/-- Sections whose marker does not occur (case-insensitively) in the guide:
`[s for s in required_sections if s.lower() not in guide_content.lower()]`. -/
def missingSections (guide : Str) : List Str :=
  required_sections.filter (fun sec => !inStr (lower sec) (lower guide))

/-- The canonical title line `f"# {company_name} + Plaid // Solutions Guide"`. -/
def plaidTitle (company_name : Str) : Str :=
  '#' :: ' ' :: company_name ++ str " + Plaid // Solutions Guide"

/-- Test for `line.startswith("# ")`. -/
def isH1 (line : Str) : Bool := (str "# ").isPrefixOf line

/-- Replace the first line starting with `"# "` by the canonical title
(the `for i, line in enumerate(lines) ... break` loop). -/
def replaceFirstH1 (lines : List Str) (company_name : Str) : List Str :=
  match lines with
  | [] => []
  | l :: ls =>
    if isH1 l then plaidTitle company_name :: ls
    else l :: replaceFirstH1 ls company_name

/-- Title-normalisation step of `_post_process_guide` (lines 286-307): if the
guide does not start with `"# " + company_name`, rewrite the first h1 line to
the canonical title, or prepend the canonical title and a blank line when no
h1 line exists. -/
def fixTitle (guide_content company_name : Str) : Str :=
  if ('#' :: ' ' :: company_name).isPrefixOf guide_content then guide_content
  else
    let lines := splitOnChar '\n' guide_content
    if lines.any isH1 then joinWith ['\n'] (replaceFirstH1 lines company_name)
    else plaidTitle company_name ++ '\n' :: '\n' :: guide_content

/-- Transcription of `GuideGenerator._post_process_guide` (lines 250-325):
section check (observability only), title normalisation, newline collapse,
strip.  The `try/except` wrapper never fires: each step is total. -/
def post_process_guide (raw_guide company_name : Str) : Str :=
  pstrip (collapse (fixTitle raw_guide company_name))

/-- The first line of a document beginning with `"# "` — the title line
referred to by the idempotence property. -/
def titleLine (s : Str) : Option Str := (splitOnChar '\n' s).find? isH1

/-! ## Glean client
`app/services/glean_client.py`.  The underlying SDK (`client.client.search.query`
and `client.client.chat.create`) is modelled as a `Provider`: each raw call
either returns its payload or raises (`Except.error`).  The `GleanClient`
methods wrap every raw call in `try/except` and therefore never raise. -/

structure SearchResult where
  title : Str
  snippet : Str
  url : Str
deriving DecidableEq

/-- The external search/chat provider (the Glean SDK): raw calls may raise.
`chat` receives the ordered message texts (context followed by question),
mirroring the `messages` list built by `chat_query`. -/
structure Provider where
  search : Str → Except Str (List SearchResult)
  chat : List Str → Except Str Str

/-- Search query string built by `search_company`. -/
def searchQuery (company_name : Str) : Str :=
  str "company information about " ++ company_name ++ str " business model products services"

/-- Result dictionary of `search_company`; `error` is present only in the
exception branches. -/
structure SearchRes where
  results : List SearchResult
  query : Str
  total_results : Nat
  error : Option Str := none
deriving DecidableEq

/-- Transcription of `GleanClient.search_company` (glean_client.py lines
40-115): run the provider search, keep the top 5 results, and on any raised
error return an empty result set carrying `"Search failed: ..."`. -/
def search_company (p : Provider) (company_name : Str) : SearchRes :=
  let search_query := searchQuery company_name
  match p.search search_query with
  | .ok rs =>
    { results := rs.take 5, query := search_query, total_results := (rs.take 5).length }
  | .error e =>
    { results := [], query := search_query, total_results := 0,
      error := some (str "Search failed: " ++ e) }

/-- Transcription of `GleanClient.chat_query` (lines 117-206): send context
messages followed by the question; on any raised error return the textual
marker `"Chat query failed: ..."` instead of raising. -/
def chat_query (p : Provider) (question : Str) (context : List Str) : Str :=
  match p.chat (context ++ [question]) with
  | .ok response_text => response_text
  | .error e => str "Chat query failed: " ++ e

/-- Business-overview chat question of `get_company_insights`, with the
use-case suffix appended when a use case is supplied. -/
def businessQuery (company_name : Str) (use_case : Option Str) : Str :=
  let q := str "Tell me about " ++ company_name ++
    str " - what is their business model, what products/services do they offer, and what industry are they in?"
  match use_case with
  | some uc => q ++ str " Focus on aspects relevant to " ++ uc ++ str "."
  | none => q

/-- Technical-context chat question of `get_company_insights`. -/
def techQuery (company_name use_case : Str) : Str :=
  str "What technical challenges might " ++ company_name ++
    str " face when implementing " ++ use_case ++
    str "? What integration considerations should we be aware of?"

/-- The insights dictionary: a field is `none` when the corresponding key is
absent from the Python dict. -/
structure Insights where
  company_name : Str
  search_results : Option SearchRes := none
  business_overview : Option Str := none
  technical_context : Option Str := none
  transcript_analysis : Option Str := none
  error : Option Str := none
deriving DecidableEq

/-- Transcription of `GleanClient.get_company_insights` (lines 208-288):
compose one search and one-or-two chat calls.  Its `try/except` fallback
(which would set a top-level `error` key) is unreachable, because
`search_company` and `chat_query` catch every provider error themselves. -/
def get_company_insights (p : Provider) (company_name : Str) (use_case : Option Str) : Insights :=
  let search_results := search_company p company_name
  let business_overview := chat_query p (businessQuery company_name use_case) []
  let technical_context :=
    match use_case with
    | some uc => some (chat_query p (techQuery company_name uc) [])
    | none => none
  { company_name := company_name, search_results := some search_results,
    business_overview := some business_overview,
    technical_context := technical_context }

/-! ## Prompt builder
`app/services/prompt_builder.py`.  Pure string assembly; the constant text
blocks are transcribed verbatim (each block listed line by line and joined
with newlines). -/

/-- The worked style example baked into `PromptBuilder._load_template_example`
(prompt_builder.py lines 26-128). -/
def template_example : String := String.intercalate "\n"
  ["",
   "# CompanyName + Plaid // Solutions Guide",
   "",
   "## What You're Building",
   "",
   "HOA financial management platform that needs to:",
   "- Connect bank accounts for business customers (HOAs)",
   "- Import transaction data for accounting/reconciliation",
   "- Integrate with Stripe for payments",
   "- Keep sensitive data storage minimal for compliance",
   "",
   "## Core Plaid Integration",
   "",
   "### 1. Bank Account Connection (`Link` + `Auth`)",
   "**What it does**: Secure bank account linking with account/routing number retrieval",
   "",
   "**Customization**: Logo, colors, copy via dashboard templates",
   "",
   "**Documentation**: [Link Overview](https://plaid.com/docs/link/) | [Auth API](https://plaid.com/docs/auth/)",
   "",
   "### 2. Stripe Integration (`Auth`)",
   "**One extra API call** after account connection",
   "",
   "### 3. Transaction Data (`Transactions`)",
   "**Real-time transaction sync** for accounting features",
   "",
   "**Documentation**: [Transactions API](https://plaid.com/docs/transactions/)",
   "",
   "## Integration Flow",
   "",
   "```mermaid",
   "sequenceDiagram",
   "    participant User as HOA User",
   "    participant App as Your App",
   "    participant Plaid as Plaid Link",
   "    participant Bank as User's Bank",
   "    participant Stripe as Stripe",
   "",
   "    User->>App: Click \"Connect Bank Account\"",
   "    App->>Plaid: Initialize Link Token",
   "    Plaid-->>App: Link Token",
   "    App->>User: Show Plaid Link UI",
   "    User->>Plaid: Enter bank credentials",
   "    Plaid->>Bank: Authenticate user",
   "    Bank-->>Plaid: Auth success",
   "    Plaid-->>App: public_token",
   "    App->>Plaid: Exchange for access_token",
   "    Plaid-->>App: access_token & account info",
   "    App->>Plaid: Get Auth data (account/routing)",
   "    Plaid-->>App: Account details",
   "    App->>Stripe: Create processor token",
   "    Stripe-->>App: Processor token",
   "    App->>Plaid: Start transaction sync",
   "    Plaid-->>App: Transaction data",
   "```",
   "",
   "## Key Technical Details",
   "",
   "### Access Token Management",
   "- **Tokens don't expire** (unless user changes bank password)",
   "- Store encrypted in your backend only",
   "- Get webhooks when tokens need updates",
   "- Users can revoke via `/item/remove` endpoint",
   "",
   "### Implementation Flow",
   "1. HOA user clicks \"Connect Bank Account\"",
   "2. Plaid Link opens (with your branding)",
   "3. User authenticates with their bank",
   "4. You get access_token",
   "5. Generate Stripe processor token",
   "6. Start syncing transaction data",
   "",
   "## What You Get Out of the Box",
   "✅ **Security**: SOC 2, PCI DSS, GDPR compliant",
   "✅ **Bank Coverage**: 12,000+ US institutions",
   "✅ **Webhooks**: Real-time account status updates",
   "✅ **User Control**: Built-in consent and revocation",
   "",
   "## Answers to Your Questions",
   "[Table format with specific Q&A from the call]",
   "",
   "## Documentation & Resources",
   "",
   "### Core API Documentation",
   "- **[Plaid Link](https://plaid.com/docs/link/)** - Client-side account connection flow",
   "- **[Auth API](https://plaid.com/docs/auth/)** - Account/routing numbers for ACH and payments",
   "- **[Transactions API](https://plaid.com/docs/transactions/)** - Real-time transaction data access",
   "- **[Identity API](https://plaid.com/docs/identity/)** - Account holder verification",
   "- **[Assets API](https://plaid.com/docs/assets/)** - Comprehensive financial reports",
   "",
   "### Developer Tools & Resources",
   "- **[API Reference](https://plaid.com/docs/api/)** - Complete endpoint documentation",
   "- **[Quickstart Guide](https://plaid.com/docs/quickstart/)** - Get started in minutes",
   "- **[Postman Collection](https://plaid.com/docs/developer-tools/postman/)** - Test APIs easily",
   "",
   "### Support & Community",
   "- **[Developer Support](https://plaid.com/docs/resources/)** - Technical support resources",
   "",
   "## Getting Started",
   "1. **Sandbox**: Test with fake banks using [Quickstart Guide](https://plaid.com/docs/quickstart/)",
   "2. **Limited Production**: Real banks, capped API calls",
   "3. **Production**: Full access after commercial agreement",
   ""]

/-- Segment of the solution-guide prompt before the first `{company_name}`
interpolation (prompt_builder.py line 173-175). -/
def sgpSeg0 : String := String.intercalate "\n"
  ["You are an expert sales engineer creating technical solution guides for Plaid's financial APIs.",
   "",
   "Your task is to analyze this call transcript from "]

/-- Segment between `{company_name}` and `{transcript}`. -/
def sgpSeg1 : String := String.intercalate "\n"
  [" and generate a concise, technical solution guide that matches the style and format of the example provided.",
   "",
   "## CALL TRANSCRIPT:",
   ""]

/-- Segment between `{transcript}` and `{business_overview}`. -/
def sgpSeg2 : String := String.intercalate "\n"
  ["",
   "",
   "## COMPANY RESEARCH:",
   "### Business Overview:",
   ""]

/-- Segment between `{business_overview}` and `{technical_context}`. -/
def sgpSeg3 : String := String.intercalate "\n"
  ["",
   "",
   "### Technical Context:",
   ""]

/-- Segment between `{technical_context}` and the additional-context value. -/
def sgpSeg4 : String := String.intercalate "\n"
  ["",
   "",
   "## ADDITIONAL CONTEXT:",
   ""]

/-- Segment between the additional-context value and `{self.template_example}`
(the template interpolation sits behind eight spaces of indentation). -/
def sgpSeg5 : String := String.intercalate "\n"
  ["",
   "",
   "## EXAMPLE SOLUTION GUIDE STYLE:",
   "        "]

/-- Segment between the template and the second `{company_name}`. -/
def sgpSeg6 : String := String.intercalate "\n"
  ["",
   "",
   "## INSTRUCTIONS:",
   "Generate a solution guide for "]

/-- Segment between the second and third `{company_name}`. -/
def sgpSeg7 : String := String.intercalate "\n"
  [" that follows these principles:",
   "",
   "1. **Focus on technical implementation** - Include specific API calls, code examples, and integration flows",
   "2. **Avoid business jargon** - Write for technical PMs who need actionable information",
   "3. **Use clear, scannable formatting** - Tables, bullet points, code blocks, checkboxes",
   "4. **Address specific questions** - Extract and answer questions raised in the call transcript",
   "5. **Provide actionable next steps** - Clear implementation roadmap",
   "6. **Match the tone and structure** - Concise, practical, technically focused like the example",
   "7. **Include sequence diagrams** - Add a Mermaid sequence diagram showing the integration flow",
   "8. **Include relevant documentation links** - Add links to Plaid's developer documentation throughout",
   "",
   "## KEY REQUIREMENTS:",
   "- Title format: \""]

/-- Segment between the third and fourth `{company_name}`. -/
def sgpSeg8 : String := String.intercalate "\n"
  [" + Plaid // Solutions Guide\"",
   "- Start with \"What You're Building\" section describing their specific use case",
   "- Include \"Core Integration\" section with specific Plaid products needed",
   "- **MANDATORY**: Add \"Integration Flow\" section with a Mermaid sequence diagram showing the step-by-step process",
   "- Add \"Key Technical Details\" with implementation specifics",
   "- Include \"What You Get Out of the Box\" with relevant benefits",
   "- Create \"Answers to Your Questions\" section addressing call discussion points",
   "- **MANDATORY**: Include \"Documentation & Resources\" section with relevant Plaid documentation links",
   "- End with \"Getting Started\" steps",
   "",
   "## PLAID DOCUMENTATION LINKS TO INCLUDE:",
   "Use these official Plaid documentation URLs where relevant:",
   "",
   "### Core API Documentation:",
   "- **Plaid Link**: https://plaid.com/docs/link/ (account connection flow)",
   "- **Auth API**: https://plaid.com/docs/auth/ (account/routing numbers for ACH)",
   "- **Transactions API**: https://plaid.com/docs/transactions/ (transaction data access)",
   "- **Identity API**: https://plaid.com/docs/identity/ (account holder verification)",
   "- **Assets API**: https://plaid.com/docs/assets/ (comprehensive financial reports)",
   "",
   "### Developer Resources:",
   "- **API Reference**: https://plaid.com/docs/api/ (complete endpoint documentation)",
   "- **Quickstart Guide**: https://plaid.com/docs/quickstart/ (getting started tutorial)",
   "- **Postman Collection**: https://plaid.com/docs/developer-tools/postman/ (API testing tools)",
   "- **Developer Support**: https://plaid.com/docs/resources/ (technical support resources)",
   "",
   "## DOCUMENTATION INTEGRATION REQUIREMENTS:",
   "1. **In Core Integration section**: Add documentation links for each Plaid product mentioned",
   "2. **In Key Technical Details**: Link to relevant API references and guides",
   "3. **In Getting Started**: Include link to Quickstart Guide for sandbox setup",
   "4. **Create comprehensive Documentation & Resources section** with:",
   "   - Core API Documentation subsection",
   "   - Developer Tools & Resources subsection  ",
   "   - Support & Community subsection",
   "5. **Throughout the guide**: Add inline links where specific APIs or features are mentioned",
   "",
   "## SEQUENCE DIAGRAM REQUIREMENTS:",
   "- Use Mermaid syntax: ```mermaid sequenceDiagram ... ```",
   "- Include key participants: User, Your App, Plaid, Bank, and any third-party services mentioned",
   "- Show the complete flow from user action to final result",
   "- Include API calls, token exchanges, and data flows",
   "- Make it specific to "]

/-- Segment between the fourth and fifth `{company_name}`. -/
def sgpSeg9 : String := String.intercalate "\n"
  ["'s use case and requirements",
   "",
   "## OUTPUT:",
   "Generate the complete solution guide for "]

/-- Final segment of the solution-guide prompt. -/
def sgpSeg10 : String :=
  " now, following the exact style and structure of the example:"

/-- Transcription of `PromptBuilder.build_solution_guide_prompt`
(prompt_builder.py lines 133-261): substitute the transcript, research
fields (with their literal placeholders when absent), additional context
and company name into the fixed template. -/
def build_solution_guide_prompt (transcript company_name : Str)
    (company_research : Insights) (additional_context : Option Str) : Str :=
  let business_overview :=
    company_research.business_overview.getD (str "No business overview available")
  let technical_context :=
    company_research.technical_context.getD (str "No technical context available")
  str sgpSeg0 ++ company_name ++ str sgpSeg1 ++ transcript ++ str sgpSeg2 ++
    business_overview ++ str sgpSeg3 ++ technical_context ++ str sgpSeg4 ++
    (match additional_context with
     | some ac => ac
     | none => str "No additional context provided") ++
    str sgpSeg5 ++ str template_example ++ str sgpSeg6 ++ company_name ++
    str sgpSeg7 ++ company_name ++ str sgpSeg8 ++ company_name ++
    str sgpSeg9 ++ company_name ++ str sgpSeg10

/-- Segment of the research prompt before the first `{company_name}`. -/
def crpSeg0 : String := "Based on this call transcript from "

/-- Segment between `{company_name}` and `{transcript_excerpt}`. -/
def crpSeg1 : String := String.intercalate "\n"
  [", help me understand their business",
   "and technical requirements:",
   "",
   "TRANSCRIPT EXCERPT:",
   ""]

/-- Segment between `{transcript_excerpt}` and the second `{company_name}`. -/
def crpSeg2 : String := String.intercalate "\n"
  ["",
   "",
   "Please provide:",
   "1. What industry/sector is "]

/-- Final segment of the research prompt. -/
def crpSeg3 : String := String.intercalate "\n"
  [" in?",
   "2. What is their business model and primary products/services?",
   "3. What technical challenges might they face?",
   "4. What integration requirements should we consider?",
   "5. Who are their likely customers/users?",
   "",
   "Focus on information that would help create a targeted technical solution guide."]

/-- Transcription of `PromptBuilder.build_company_research_prompt`
(prompt_builder.py lines 263-299). -/
def build_company_research_prompt (company_name transcript_excerpt : Str) : Str :=
  str crpSeg0 ++ company_name ++ str crpSeg1 ++ transcript_excerpt ++
    str crpSeg2 ++ company_name ++ str crpSeg3

/-! ## Orchestrator
`app/services/guide_generator.py`, `GuideGenerator.generate_guide` and
`_research_company`.  The orchestrator talks to its `self.glean_client`
dependency, an object whose awaited methods may raise; it is modelled as an
interface whose operations return `Except` (the repository's own test suite
substitutes raising mocks for these methods).  The concrete client built on a
`Provider` (`mkGleanClient`) never raises.  Every interface call is counted,
so that "never reaches the Research Gateway" is the statement that the final
count is zero. -/

structure GleanClientIface where
  get_company_insights : Str → Option Str → Except Str Insights
  chat_query : Str → List Str → Except Str Str

/-- The real client of `GuideGenerator.__init__`: wraps the total
`GleanClient` methods, which catch all provider errors. -/
def mkGleanClient (p : Provider) : GleanClientIface :=
  { get_company_insights := fun n u => .ok (get_company_insights p n u),
    chat_query := fun q ctx => .ok (chat_query p q ctx) }

/-- The degraded research dictionary built by `_research_company`'s `except`
branch (guide_generator.py lines 186-191). -/
def researchErrorInsights (company_name e : Str) : Insights :=
  { company_name := company_name,
    business_overview :=
      some (str "Unable to research " ++ company_name ++ str ". Error: " ++ e),
    technical_context :=
      some (str "No technical context available due to research error."),
    error := some e }

/-- Transcription of `GuideGenerator._research_company` (lines 128-191):
extract the use case, fetch company insights, and for transcripts longer
than 500 characters run one extra research chat; any raised error is caught
and converted to `researchErrorInsights`.  The second component counts the
gateway calls made, added to `calls`. -/
def research_company (cl : GleanClientIface) (company_name transcript : Str)
    (additional_context : Option Str) (calls : Nat) : Insights × Nat :=
  let use_case := extract_use_case transcript additional_context
  match cl.get_company_insights company_name (some use_case) with
  | .error e => (researchErrorInsights company_name e, calls + 1)
  | .ok insights =>
    if transcript.length > 500 then
      let transcript_excerpt :=
        if transcript.length > 1000 then transcript.take 1000 ++ str "..." else transcript
      let research_prompt := build_company_research_prompt company_name transcript_excerpt
      match cl.chat_query research_prompt [] with
      | .error e => (researchErrorInsights company_name e, calls + 2)
      | .ok additional_research =>
        ({ insights with transcript_analysis := some additional_research }, calls + 2)
    else (insights, calls + 1)

/-- Transcription of `GuideGenerator.generate_guide` (lines 29-126): research
(self-recovering), prompt building, generation chat, post-processing; any
exception raised by the non-recovering steps is re-raised as
`"Failed to generate solution guide: <cause>"`.  Among those steps only the
generation chat can raise: prompt building and post-processing are total.
The second component is the number of gateway calls made. -/
def generate_guide (cl : GleanClientIface) (transcript company_name : Str)
    (additional_context : Option Str) : Except Str Str × Nat :=
  let (company_insights, n1) := research_company cl company_name transcript additional_context 0
  let prompt := build_solution_guide_prompt transcript company_name company_insights additional_context
  match cl.chat_query prompt [] with
  | .error e => (.error (str "Failed to generate solution guide: " ++ e), n1 + 1)
  | .ok solution_guide => (.ok (post_process_guide solution_guide company_name), n1 + 1)

/-! ## HTTP endpoint
`app/routers/api.py`, `generate_solution_guide`, together with the model
validation of `app/models/requests.py`: `TranscriptRequest` declares
`min_length=1` on `transcript` and `company_name`, and FastAPI rejects a
violating body with status 422 before the handler runs.  Inside the handler,
a whitespace-only field fails the `strip()` checks and raises an
`HTTPException` with status 400; a raising `generate_guide` is converted to
status 500 with a `detail` text. -/

inductive HTTPResponse where
  | ok (guide : Str) (company_name : Str)
  | err (status : Nat) (detail : Str)
deriving DecidableEq

/-- Transcription of the `POST /generate-guide` handler (api.py lines
19-104) behind the Pydantic model validation; the second component counts
Research Gateway calls (zero when validation rejects the request). -/
def generate_solution_guide (cl : GleanClientIface) (transcript company_name : Str)
    (additional_context : Option Str) : HTTPResponse × Nat :=
  if transcript.length < 1 || company_name.length < 1 then
    (.err 422 (str "String should have at least 1 character"), 0)
  else if (pstrip transcript).isEmpty then
    (.err 400 (str "Transcript cannot be empty"), 0)
  else if (pstrip company_name).isEmpty then
    (.err 400 (str "Company name cannot be empty"), 0)
  else
    match generate_guide cl transcript company_name additional_context with
    | (.ok guide, n) => (.ok guide company_name, n)
    | (.error e, n) => (.err 500 (str "Failed to generate solution guide: " ++ e), n)

/-! ## Environment validation
`app/services/guide_generator.py`, `GuideGenerator.validate_environment`
(lines 327-375). -/

structure ValidationResults where
  glean_client : Bool
  configuration : Bool
  connectivity : Bool
deriving DecidableEq

/-- The connectivity test message. -/
def validationTestMsg : Str := str "Hello, this is a test."

/-- Transcription of `validate_environment`: configuration requires both
settings non-empty; connectivity (and the client flag) require the test chat
response to contain neither `"error"` nor `"failed"` case-insensitively. -/
def validate_environment (p : Provider) (glean_instance glean_api_token : Str) :
    ValidationResults :=
  let configuration := !glean_instance.isEmpty && !glean_api_token.isEmpty
  let test_response := chat_query p validationTestMsg []
  let connected :=
    !inStr (str "error") (lower test_response) && !inStr (str "failed") (lower test_response)
  { glean_client := connected, configuration := configuration, connectivity := connected }

/-! ## Concrete instances used by counterexamples and witnesses -/

/-- A provider whose raw calls always succeed with fixed payloads. -/
def okProvider : Provider :=
  { search := fun _ => .ok [], chat := fun _ => .ok (str "fine") }

/-- A provider whose raw calls always raise. -/
def failProvider : Provider :=
  { search := fun _ => .error (str "boom"), chat := fun _ => .error (str "boom") }

/-- A client whose operations always succeed. -/
def okClient : GleanClientIface := mkGleanClient okProvider

/-- A client whose chat operation always raises, as the test suite's raising
mocks do. -/
def chatFailClient : GleanClientIface :=
  { get_company_insights := fun n u => .ok (get_company_insights okProvider n u),
    chat_query := fun _ _ => .error (str "boom") }

/-- Auxiliary: how `splitOnChar` of a concatenation combines the two chunk
lists (the last chunk of the left part fuses with the first chunk of the
right part). -/
def glue : List Str → List Str → List Str
  | [], ys => ys
  | [x], [] => [x]
  | [x], y :: ys => (x ++ y) :: ys
  | x :: xs, ys => x :: glue xs ys

/-! ## General lemmas about the text primitives -/

/-- First line of the canonical Plaid title for a company name containing a
newline: `"# "` followed by the company name truncated at its first newline. -/
def flTitle (c : Str) : Str := '#' :: ' ' :: c.takeWhile (fun x => x != '\n')

instance {ε α : Type} [DecidableEq ε] [DecidableEq α] : DecidableEq (Except ε α) := fun a b =>
  match a, b with
  | .ok x, .ok y =>
    if h : x = y then .isTrue (congrArg Except.ok h)
    else .isFalse (fun hh => h (Except.ok.inj hh))
  | .error x, .error y =>
    if h : x = y then .isTrue (congrArg Except.error h)
    else .isFalse (fun hh => h (Except.error.inj hh))
  | .ok _, .error _ => .isFalse (fun hh => Except.noConfusion hh)
  | .error _, .ok _ => .isFalse (fun hh => Except.noConfusion hh)

theorem isPrefixOf_append {l m b : Str} (h : l.isPrefixOf m = true) :
    l.isPrefixOf (m ++ b) = true := by
  rw [List.isPrefixOf_iff_prefix] at h ⊢
  exact h.trans (List.prefix_append m b)

theorem inStr_append {n a : Str} (b : Str) (h : inStr n a = true) :
    inStr n (a ++ b) = true := by
  induction a with
  | nil =>
    simp [inStr] at h
    subst h
    cases b with
    | nil => simp [inStr]
    | cons x t => simp [inStr, List.isPrefixOf]
  | cons x a' ih =>
    simp only [inStr, Bool.or_eq_true] at h
    rcases h with h | h
    · simp only [List.cons_append, inStr, Bool.or_eq_true]
      exact Or.inl (isPrefixOf_append h)
    · simp only [List.cons_append, inStr, Bool.or_eq_true]
      exact Or.inr (ih h)

theorem lower_append (a b : Str) : lower (a ++ b) = lower a ++ lower b :=
  List.map_append _ a b

/-! ## C2 — the `"API"` keyword can never match -/

/-- Claim C2: a transcript whose first period-delimited segment contains the
keyword `"API"` and no other keyword is claimed to yield that segment.  The
code instead returns the fallback: the candidate sentence is lower-cased
before the containment test, while the keyword list carries `"API"` in upper
case, so this keyword never occurs in the lowered text.  This theorem
evaluates the code at the failing input. -/
theorem C2_api_keyword_dead :
    extract_use_case (str "We need an API") none = defaultUseCase ∧
    matchingKeywords (str "We need an API") = [] ∧
    (str "API") ∈ use_case_keywords := by
  refine ⟨by decide, by decide, by decide⟩

/-! ## C8 — only the first 20 period-delimited segments are examined -/

/-- Claim C8: whenever none of the first 20 period-delimited segments of the
transcript matches a keyword (in particular when the only keyword occurrence
lies in segment 21 or later) and no additional context is supplied, the
result is exactly the fallback string. -/
theorem C8_first_20_segments_only (transcript : Str)
    (h : ∀ s ∈ (splitOnChar '.' transcript).take 20, matchingKeywords s = []) :
    extract_use_case transcript none = defaultUseCase := by
  have hf : ((splitOnChar '.' transcript).take 20).filter
      (fun s => !(matchingKeywords s).isEmpty) = [] := by
    rw [List.filter_eq_nil_iff]
    intro a ha
    simp [h a ha]
  simp [extract_use_case, hf]

/-- Witness for C8: a transcript with 20 empty segments followed by a segment
containing the keyword `"payment"` falls back. -/
theorem C8_witness :
    (∀ s ∈ (splitOnChar '.' (str "....................payment")).take 20,
      matchingKeywords s = []) ∧
    extract_use_case (str "....................payment") none = defaultUseCase := by
  refine ⟨by decide, C8_first_20_segments_only _ (by decide)⟩

/-! ## C10 — title normalisation is a prefix check only -/

/-- Claim C10: when the input starts with `"# " + companyName` — even when the
first line is not the canonical title — the title step leaves the document
unchanged and only the whitespace cleanup (newline collapse then strip) is
applied. -/
theorem C10_title_prefix_check_only (text company_name : Str)
    (h : ('#' :: ' ' :: company_name).isPrefixOf text = true) :
    post_process_guide text company_name = pstrip (collapse text) := by
  simp [post_process_guide, fixTitle, h]

/-- Witness for C10 at the non-canonical title `"# Acme overview"`. -/
theorem C10_witness :
    ('#' :: ' ' :: str "Acme").isPrefixOf (str "# Acme overview\ncontent") = true ∧
    post_process_guide (str "# Acme overview\ncontent") (str "Acme") =
      pstrip (collapse (str "# Acme overview\ncontent")) :=
  ⟨by decide, C10_title_prefix_check_only _ _ (by decide)⟩

/-! ## C3 — which layer blocks empty inputs from the gateway -/

/-- Claim C3 asserts that `generate_guide` itself, called with an empty
transcript and company name, performs zero Research Gateway calls.  It does
not: `generate_guide` performs no validation (the HTTP handler does), and on
empty inputs it still performs its research and generation calls — two
gateway calls with a short transcript. -/
theorem C3_counterexample : (generate_guide okClient [] [] none).2 ≠ 0 := by decide

/-- Amended claim C3: the rejection happens in the `POST /generate-guide`
handler (together with model validation), before the generator is invoked:
a request whose transcript or company name is empty after trimming whitespace
produces zero Research Gateway calls.  `generate_guide` itself always
contacts the gateway. -/
theorem C3_endpoint_zero_gateway_calls (cl : GleanClientIface)
    (transcript company_name : Str) (additional_context : Option Str)
    (h : (pstrip transcript).isEmpty = true ∨ (pstrip company_name).isEmpty = true) :
    (generate_solution_guide cl transcript company_name additional_context).2 = 0 := by
  unfold generate_solution_guide
  split
  · rfl
  · split
    · rfl
    · split
      · rfl
      · rename_i h1 h2 h3
        rcases h with h | h
        · exact absurd h h2
        · exact absurd h h3

/-- Witness for C3 (amended): a whitespace-only transcript. -/
theorem C3_witness :
    ((pstrip (str " ")).isEmpty = true ∨ (pstrip (str "X")).isEmpty = true) ∧
    (generate_solution_guide okClient (str " ") (str "X") none).2 = 0 :=
  ⟨Or.inl (by decide),
   C3_endpoint_zero_gateway_calls okClient (str " ") (str "X") none (Or.inl (by decide))⟩

/-! ## C1 — response statuses of `POST /generate-guide` -/

/-- Claim C1 asserts status 422 for every request whose transcript or company
name is empty after trimming.  A whitespace-only field, however, passes the
model validation (`min_length=1`) and is rejected by the handler's `strip()`
check with status 400. -/
theorem C1_counterexample :
    (generate_solution_guide okClient (str " ") (str "TechCorp") none).1 =
      .err 400 (str "Transcript cannot be empty") ∧ 400 ≠ 422 :=
  ⟨by decide, by decide⟩

/-- Amended claim C1: a request with a zero-length transcript or company name
is rejected with 422 by model validation; a non-empty field that is empty
after trimming whitespace is rejected by the handler with 400; and every
internal failure produces status 500 whose `detail` text carries the failure
message. -/
theorem C1_endpoint_statuses (cl : GleanClientIface) (transcript company_name : Str)
    (additional_context : Option Str) :
    (transcript = [] ∨ company_name = [] →
      (generate_solution_guide cl transcript company_name additional_context).1 =
        .err 422 (str "String should have at least 1 character"))
    ∧ (transcript ≠ [] → company_name ≠ [] → (pstrip transcript).isEmpty = true →
      (generate_solution_guide cl transcript company_name additional_context).1 =
        .err 400 (str "Transcript cannot be empty"))
    ∧ (transcript ≠ [] → company_name ≠ [] → (pstrip transcript).isEmpty = false →
      (pstrip company_name).isEmpty = true →
      (generate_solution_guide cl transcript company_name additional_context).1 =
        .err 400 (str "Company name cannot be empty"))
    ∧ (∀ e n, transcript ≠ [] → company_name ≠ [] → (pstrip transcript).isEmpty = false →
      (pstrip company_name).isEmpty = false →
      generate_guide cl transcript company_name additional_context = (.error e, n) →
      (generate_solution_guide cl transcript company_name additional_context).1 =
        .err 500 (str "Failed to generate solution guide: " ++ e)) := by
  refine ⟨?_, ?_, ?_, ?_⟩
  · intro h
    rcases h with h | h <;> subst h <;> simp [generate_solution_guide]
  · intro ht hc hs
    simp [generate_solution_guide, Nat.lt_one_iff, List.length_eq_zero, ht, hc, hs]
  · intro ht hc hs hcs
    simp [generate_solution_guide, Nat.lt_one_iff, List.length_eq_zero, ht, hc, hs, hcs]
  · intro e n ht hc hs hcs hg
    simp [generate_solution_guide, Nat.lt_one_iff, List.length_eq_zero, ht, hc, hs, hcs, hg]

/-- Witness for C1 (amended): the 422 branch at a zero-length transcript and
the 500 branch under a raising generation chat. -/
theorem C1_witness :
    (generate_solution_guide okClient [] (str "X") none).1 =
      .err 422 (str "String should have at least 1 character") ∧
    (generate_solution_guide chatFailClient (str "t") (str "C") none).1 =
      .err 500 (str "Failed to generate solution guide: " ++
        (str "Failed to generate solution guide: " ++ str "boom")) :=
  ⟨(C1_endpoint_statuses okClient [] (str "X") none).1 (Or.inl rfl),
   (C1_endpoint_statuses chatFailClient (str "t") (str "C") none).2.2.2
     (str "Failed to generate solution guide: " ++ str "boom") 2
     (by decide) (by decide) (by decide) (by decide) (by decide)⟩

/-! ## C4 — `get_company_insights` on sub-call failure -/

/-- Claim C4 asserts that a failing sub-call sets the returned structure's
top-level `error` key.  It does not: with a provider whose search and chat
calls both raise, the business-overview field carries the failure marker (the
sub-call failed), yet the top-level `error` key is absent — the method's own
`except` branch is unreachable because the sub-calls catch every provider
error themselves (confirmed by the repository's
`test_get_company_insights_error_handling`). -/
theorem C4_counterexample :
    (get_company_insights failProvider (str "Acme") (some (str "payments"))).business_overview =
      some (str "Chat query failed: boom") ∧
    (get_company_insights failProvider (str "Acme") (some (str "payments"))).error = none := by
  exact ⟨by decide, by decide⟩

/-- Amended claim C4: `getCompanyInsights` never raises (it is a total
function of the provider), and when a sub-call fails the corresponding field
holds an explanatory placeholder — `"Chat query failed: ..."` in the chat
fields, a nested `error` entry `"Search failed: ..."` inside
`search_results` — but the top-level `error` key remains unset. -/
theorem C4_insights_on_subcall_failure (p : Provider) (company_name use_case : Str) :
    (get_company_insights p company_name (some use_case)).error = none
    ∧ (get_company_insights p company_name (some use_case)).company_name = company_name
    ∧ (∀ e, p.chat [businessQuery company_name (some use_case)] = .error e →
      (get_company_insights p company_name (some use_case)).business_overview =
        some (str "Chat query failed: " ++ e))
    ∧ (∀ e, p.search (searchQuery company_name) = .error e →
      (get_company_insights p company_name (some use_case)).search_results =
        some { results := [], query := searchQuery company_name, total_results := 0,
               error := some (str "Search failed: " ++ e) })
    ∧ (∀ e, p.chat [techQuery company_name use_case] = .error e →
      (get_company_insights p company_name (some use_case)).technical_context =
        some (str "Chat query failed: " ++ e)) := by
  refine ⟨rfl, rfl, ?_, ?_, ?_⟩
  · intro e he
    simp [get_company_insights, chat_query, he]
  · intro e he
    simp [get_company_insights, search_company, he]
  · intro e he
    simp [get_company_insights, chat_query, he]

/-- Witness for C4 (amended) at the all-failing provider. -/
theorem C4_witness :
    failProvider.chat [businessQuery (str "Acme") (some (str "payments"))] =
      .error (str "boom") ∧
    (get_company_insights failProvider (str "Acme") (some (str "payments"))).business_overview =
      some (str "Chat query failed: " ++ str "boom") :=
  ⟨rfl, (C4_insights_on_subcall_failure failProvider (str "Acme") (str "payments")).2.2.1
    (str "boom") rfl⟩

/-! ## C9 — chat failure markers and the connectivity check -/

/-- Claim C9: on provider failure `chat_query` returns
`"Chat query failed: <cause>"` instead of raising; since this marker contains
`"failed"`, the environment validator's connectivity check (which requires
the test response to contain neither `"error"` nor `"failed"`,
case-insensitively) reports `connectivity = false`. -/
theorem C9_chat_failure_marker (p : Provider) (glean_instance glean_api_token e : Str)
    (h : p.chat [validationTestMsg] = .error e) :
    chat_query p validationTestMsg [] = str "Chat query failed: " ++ e
    ∧ (validate_environment p glean_instance glean_api_token).connectivity = false := by
  have hcq : chat_query p validationTestMsg [] = str "Chat query failed: " ++ e := by
    simp [chat_query, h]
  refine ⟨hcq, ?_⟩
  have hfail : inStr (str "failed") (lower (str "Chat query failed: " ++ e)) = true := by
    rw [lower_append]
    exact inStr_append _ (by decide)
  simp [validate_environment, hcq, hfail]

/-- Witness for C9 at the all-failing provider. -/
theorem C9_witness :
    failProvider.chat [validationTestMsg] = .error (str "boom") ∧
    (chat_query failProvider validationTestMsg [] = str "Chat query failed: " ++ str "boom"
      ∧ (validate_environment failProvider (str "inst") (str "tok")).connectivity = false) :=
  ⟨rfl, C9_chat_failure_marker failProvider (str "inst") (str "tok") (str "boom") rfl⟩

/-! ## C7 — a raising generation stage yields the uniform failure message -/

/-- Claim C7: among the prompt-building, generation and post-processing
stages only the generation chat can raise (the other two are total
functions); when the client's `chat_query` raises for every invocation,
`generate_guide` fails with a single failure whose message is
`"Failed to generate solution guide: <cause>"`. -/
theorem C7_chat_raises_failure (cl : GleanClientIface) (transcript company_name : Str)
    (additional_context : Option Str)
    (h : ∀ q ctx, ∃ e, cl.chat_query q ctx = .error e) :
    ∃ msg, (generate_guide cl transcript company_name additional_context).1 = .error msg
      ∧ (str "Failed to generate solution guide").isPrefixOf msg = true := by
  rcases hr : research_company cl company_name transcript additional_context 0 with ⟨ci, n1⟩
  obtain ⟨e, he⟩ :=
    h (build_solution_guide_prompt transcript company_name ci additional_context) []
  refine ⟨str "Failed to generate solution guide: " ++ e, ?_, ?_⟩
  · simp [generate_guide, hr, he]
  · exact isPrefixOf_append (by decide)

/-- Witness for C7: the client whose chat always raises. -/
theorem C7_witness :
    ∃ msg, (generate_guide chatFailClient (str "transcript") (str "TechCorp") none).1 =
      .error msg ∧ (str "Failed to generate solution guide").isPrefixOf msg = true :=
  C7_chat_raises_failure chatFailClient (str "transcript") (str "TechCorp") none
    (fun _ _ => ⟨str "boom", rfl⟩)

/-! ## C6 — round-trip of a well-formed guide -/

theorem collapse_cons_of_ne {c : Char} {cs : Str}
    (hne : ∀ rest, c = '\n' → cs = '\n' :: '\n' :: rest → False) :
    collapse (c :: cs) = c :: collapse cs := by
  cases cs with
  | nil =>
    rw [collapse]
    intro rest h1 h2
    simp at h2
  | cons b cs' =>
    cases cs' with
    | nil =>
      rw [collapse]
      intro rest h1 h2
      simp at h2
    | cons d cs'' =>
      rw [collapse]
      exact hne

theorem collapse_of_no_triple {t : Str} (h : inStr (str "\n\n\n") t = false) :
    collapse t = t := by
  induction t using collapse.induct with
  | case1 rest ih =>
    exfalso
    have hm : inStr (str "\n\n\n") ('\n' :: '\n' :: '\n' :: rest) = true := by
      simp [inStr, List.isPrefixOf]
    rw [hm] at h
    simp at h
  | case2 c cs hne ih =>
    have h' : inStr (str "\n\n\n") cs = false := by
      revert h
      simp only [inStr, Bool.or_eq_false_iff]
      intro h
      exact h.2
    rw [collapse_cons_of_ne hne, ih h']
  | case3 => rfl

/-- Claim C6: a guide starting with `"# " + companyName` and containing all
required section markers passes post-processing with only the whitespace
cleanup applied (newline collapse then strip); when additionally it has no
triple-newline run and no leading or trailing whitespace, it is returned
unchanged. -/
theorem C6_wellformed_roundtrip (text company_name : Str)
    (hpre : ('#' :: ' ' :: company_name).isPrefixOf text = true)
    (_hsec : missingSections text = []) :
    post_process_guide text company_name = pstrip (collapse text)
    ∧ (inStr (str "\n\n\n") text = false → lstrip text = text → rstrip text = text →
        post_process_guide text company_name = text) := by
  have hbase : post_process_guide text company_name = pstrip (collapse text) := by
    simp [post_process_guide, fixTitle, hpre]
  refine ⟨hbase, fun h3 hl hr => ?_⟩
  rw [hbase, collapse_of_no_triple h3, pstrip, hl, hr]

/-- Witness for C6 at a concrete well-formed guide. -/
theorem C6_witness :
    ('#' :: ' ' :: str "Acme").isPrefixOf
      (str "# Acme + Plaid // Solutions Guide\n\nWhat You're Building\n\nIntegration\n\nTechnical\n\nGetting Started") = true ∧
    missingSections
      (str "# Acme + Plaid // Solutions Guide\n\nWhat You're Building\n\nIntegration\n\nTechnical\n\nGetting Started") = [] ∧
    post_process_guide
      (str "# Acme + Plaid // Solutions Guide\n\nWhat You're Building\n\nIntegration\n\nTechnical\n\nGetting Started")
      (str "Acme") =
      str "# Acme + Plaid // Solutions Guide\n\nWhat You're Building\n\nIntegration\n\nTechnical\n\nGetting Started" :=
  ⟨by decide, by decide,
   (C6_wellformed_roundtrip _ _ (by decide) (by decide)).2 (by decide) (by decide) (by decide)⟩

/-! ## Lemmas about `splitOnChar` and `joinWith` -/

theorem splitOnChar_cons_sep (sep : Char) (cs : Str) :
    splitOnChar sep (sep :: cs) = [] :: splitOnChar sep cs := by
  rw [splitOnChar]
  simp

theorem splitOnChar_cons_ne {sep c : Char} {cs : Str} (h : ¬ c = sep)
    {l : Str} {ls : List Str} (hE : splitOnChar sep cs = l :: ls) :
    splitOnChar sep (c :: cs) = (c :: l) :: ls := by
  rw [splitOnChar, if_neg h, hE]

theorem splitOnChar_ne_nil (sep : Char) (s : Str) : splitOnChar sep s ≠ [] := by
  induction s with
  | nil => simp [splitOnChar]
  | cons c cs ih =>
    by_cases hc : c = sep
    · subst hc
      rw [splitOnChar_cons_sep]
      simp
    · rcases hE : splitOnChar sep cs with _ | ⟨l, ls⟩
      · exact absurd hE ih
      · rw [splitOnChar_cons_ne hc hE]
        simp

theorem not_mem_of_mem_splitOnChar {sep : Char} :
    ∀ {s l : Str}, l ∈ splitOnChar sep s → sep ∉ l := by
  intro s
  induction s with
  | nil =>
    intro l h
    simp [splitOnChar] at h
    subst h
    simp
  | cons c cs ih =>
    intro l h
    by_cases hc : c = sep
    · subst hc
      rw [splitOnChar_cons_sep] at h
      rcases List.mem_cons.mp h with h | h
      · subst h; simp
      · exact ih h
    · rcases hE : splitOnChar sep cs with _ | ⟨l0, ls⟩
      · exact absurd hE (splitOnChar_ne_nil sep cs)
      · rw [splitOnChar_cons_ne hc hE] at h
        rcases List.mem_cons.mp h with h | h
        · subst h
          intro hmem
          rcases List.mem_cons.mp hmem with h' | h'
          · exact hc h'.symm
          · exact ih (hE ▸ List.mem_cons_self l0 ls) h'
        · exact ih (hE ▸ List.mem_cons_of_mem l0 h)

theorem mem_of_mem_splitOnChar {sep : Char} :
    ∀ {s l : Str}, l ∈ splitOnChar sep s → ∀ {x}, x ∈ l → x ∈ s := by
  intro s
  induction s with
  | nil =>
    intro l h
    simp [splitOnChar] at h
    subst h
    simp
  | cons c cs ih =>
    intro l h x hx
    by_cases hc : c = sep
    · subst hc
      rw [splitOnChar_cons_sep] at h
      rcases List.mem_cons.mp h with h | h
      · subst h; simp at hx
      · exact List.mem_cons_of_mem _ (ih h hx)
    · rcases hE : splitOnChar sep cs with _ | ⟨l0, ls⟩
      · exact absurd hE (splitOnChar_ne_nil sep cs)
      · rw [splitOnChar_cons_ne hc hE] at h
        rcases List.mem_cons.mp h with h | h
        · subst h
          rcases List.mem_cons.mp hx with h' | h'
          · subst h'; exact List.mem_cons_self x cs
          · exact List.mem_cons_of_mem _ (ih (hE ▸ List.mem_cons_self l0 ls) h')
        · exact List.mem_cons_of_mem _ (ih (hE ▸ List.mem_cons_of_mem l0 h) hx)

theorem joinWith_splitOnChar (sep : Char) (s : Str) :
    joinWith [sep] (splitOnChar sep s) = s := by
  induction s with
  | nil => rfl
  | cons c cs ih =>
    by_cases hc : c = sep
    · subst hc
      rw [splitOnChar_cons_sep]
      rcases hE : splitOnChar c cs with _ | ⟨l, ls⟩
      · exact absurd hE (splitOnChar_ne_nil c cs)
      · rw [hE] at ih
        simp only [joinWith]
        rw [ih]
        simp
    · rcases hE : splitOnChar sep cs with _ | ⟨l, ls⟩
      · exact absurd hE (splitOnChar_ne_nil sep cs)
      · rw [splitOnChar_cons_ne hc hE]
        rw [hE] at ih
        cases ls with
        | nil =>
          simp only [joinWith] at ih ⊢
          rw [ih]
        | cons m ls' =>
          simp only [joinWith] at ih ⊢
          rw [List.cons_append, List.cons_append, ih]

theorem splitOnChar_of_not_mem {sep : Char} {l : Str} (h : sep ∉ l) :
    splitOnChar sep l = [l] := by
  induction l with
  | nil => rfl
  | cons c l' ih =>
    have hc : ¬ c = sep := fun hh => h (hh ▸ List.mem_cons_self c l')
    have h' : sep ∉ l' := fun hh => h (List.mem_cons_of_mem c hh)
    exact splitOnChar_cons_ne hc (ih h')

theorem splitOnChar_append_sep {sep : Char} {l : Str} (h : sep ∉ l) (x : Str) :
    splitOnChar sep (l ++ sep :: x) = l :: splitOnChar sep x := by
  induction l with
  | nil => simpa using splitOnChar_cons_sep sep x
  | cons c l' ih =>
    have hc : ¬ c = sep := fun hh => h (hh ▸ List.mem_cons_self c l')
    have h' : sep ∉ l' := fun hh => h (List.mem_cons_of_mem c hh)
    rw [List.cons_append]
    exact splitOnChar_cons_ne hc (ih h')

theorem splitOnChar_joinWith {sep : Char} :
    ∀ {L : List Str}, (∀ l ∈ L, sep ∉ l) → L ≠ [] →
      splitOnChar sep (joinWith [sep] L) = L := by
  intro L
  induction L with
  | nil => intro _ h; exact absurd rfl h
  | cons l L' ih =>
    intro hmem _
    cases L' with
    | nil =>
      simp only [joinWith]
      exact splitOnChar_of_not_mem (hmem l (List.mem_cons_self l []))
    | cons m L'' =>
      have hl : sep ∉ l := hmem l (List.mem_cons_self l _)
      have hrest : ∀ x ∈ m :: L'', sep ∉ x := fun x hx => hmem x (List.mem_cons_of_mem l hx)
      have hjoin : joinWith [sep] (l :: m :: L'') = l ++ sep :: joinWith [sep] (m :: L'') := by
        simp only [joinWith]
        rw [List.append_assoc]
        rfl
      rw [hjoin, splitOnChar_append_sep hl, ih hrest (by simp)]

theorem glue_two (x : Str) (y : Str) (ys : List Str) (M : List Str) :
    glue (x :: y :: ys) M = x :: glue (y :: ys) M := rfl

theorem glue_single (x m : Str) (ms : List Str) : glue [x] (m :: ms) = (x ++ m) :: ms := rfl

theorem splitOnChar_append (sep : Char) (a b : Str) :
    splitOnChar sep (a ++ b) = glue (splitOnChar sep a) (splitOnChar sep b) := by
  induction a with
  | nil =>
    rcases hb : splitOnChar sep b with _ | ⟨m, ms⟩
    · exact absurd hb (splitOnChar_ne_nil sep b)
    · simp [splitOnChar, glue, hb]
  | cons c a' ih =>
    by_cases hc : c = sep
    · subst hc
      rw [List.cons_append, splitOnChar_cons_sep, splitOnChar_cons_sep, ih]
      rcases hA : splitOnChar c a' with _ | ⟨l, ls⟩
      · exact absurd hA (splitOnChar_ne_nil c a')
      · exact (glue_two [] l ls _).symm
    · rcases hA : splitOnChar sep a' with _ | ⟨l, ls⟩
      · exact absurd hA (splitOnChar_ne_nil sep a')
      · rcases hb : splitOnChar sep b with _ | ⟨m, ms⟩
        · exact absurd hb (splitOnChar_ne_nil sep b)
        · cases ls with
          | nil =>
            have hab : splitOnChar sep (a' ++ b) = (l ++ m) :: ms := by
              rw [ih, hA, hb, glue_single]
            rw [List.cons_append, splitOnChar_cons_ne hc hab,
              splitOnChar_cons_ne hc hA, glue_single, List.cons_append]
          | cons g gs =>
            have hab : splitOnChar sep (a' ++ b) = l :: glue (g :: gs) (m :: ms) := by
              rw [ih, hA, hb, glue_two]
            rw [List.cons_append, splitOnChar_cons_ne hc hab,
              splitOnChar_cons_ne hc hA, glue_two]

theorem glue_eq_dropLast :
    ∀ {L : List Str} (hL : L ≠ []) (m : Str) (ms : List Str),
      glue L (m :: ms) = L.dropLast ++ (L.getLast hL ++ m) :: ms := by
  intro L
  induction L with
  | nil => intro h; exact absurd rfl h
  | cons x L' ih =>
    intro _ m ms
    cases L' with
    | nil => simp [glue]
    | cons y L'' =>
      rw [glue_two x y L'', ih (by simp) m ms]
      simp [List.getLast]

/-! ## Lemmas about `collapse` -/

theorem collapse_eq_nil_iff {s : Str} : collapse s = [] ↔ s = [] := by
  induction s using collapse.induct with
  | case1 rest ih => simp [collapse]
  | case2 c cs hne ih => rw [collapse_cons_of_ne hne]; simp
  | case3 => simp [collapse]

theorem collapse_head? (s : Str) : (collapse s).head? = s.head? := by
  induction s using collapse.induct <;> simp [collapse]

theorem getLast?_cons_of_ne {α : Type} {a : α} {l : List α} (h : l ≠ []) :
    (a :: l).getLast? = l.getLast? := by
  cases l with
  | nil => exact absurd rfl h
  | cons b l' => exact List.getLast?_cons_cons

theorem collapse_getLast? (s : Str) : (collapse s).getLast? = s.getLast? := by
  induction s using collapse.induct with
  | case1 rest ih =>
    by_cases hr : rest = []
    · subst hr
      have : collapse ([] : Str) = [] := rfl
      simp [collapse, this]
    · have hcr : collapse rest ≠ [] := fun hh => hr (collapse_eq_nil_iff.mp hh)
      rw [collapse]
      rw [getLast?_cons_of_ne (by simp), getLast?_cons_of_ne hcr,
        getLast?_cons_of_ne (by simp), getLast?_cons_of_ne (by simp),
        getLast?_cons_of_ne hr]
      exact ih
  | case2 c cs hne ih =>
    rw [collapse_cons_of_ne hne]
    by_cases hcs : cs = []
    · subst hcs
      have : collapse ([] : Str) = [] := rfl
      simp [this]
    · have hcc : collapse cs ≠ [] := fun hh => hcs (collapse_eq_nil_iff.mp hh)
      rw [getLast?_cons_of_ne hcc, getLast?_cons_of_ne hcs]
      exact ih
  | case3 => rfl

theorem collapse_append_no_nl {p : Str} (r : Str) (h : ∀ x ∈ p, x ≠ '\n') :
    collapse (p ++ r) = p ++ collapse r := by
  induction p with
  | nil => rfl
  | cons c p' ih =>
    have hc : c ≠ '\n' := h c (List.mem_cons_self c p')
    have h' : ∀ x ∈ p', x ≠ '\n' := fun x hx => h x (List.mem_cons_of_mem c hx)
    rw [List.cons_append, collapse_cons_of_ne (fun _ h1 _ => hc h1), ih h', List.cons_append]

theorem collapse_lines (s : Str) :
    (splitOnChar '\n' (collapse s)).head? = (splitOnChar '\n' s).head? ∧
    (splitOnChar '\n' (collapse s)).filter (fun l => !l.isEmpty) =
      (splitOnChar '\n' s).filter (fun l => !l.isEmpty) := by
  induction s using collapse.induct with
  | case1 rest ih =>
    constructor
    · rw [collapse, splitOnChar_cons_sep, splitOnChar_cons_sep, splitOnChar_cons_sep,
        splitOnChar_cons_sep, splitOnChar_cons_sep]
      rfl
    · rw [collapse, splitOnChar_cons_sep, splitOnChar_cons_sep, splitOnChar_cons_sep,
        splitOnChar_cons_sep, splitOnChar_cons_sep]
      simp only [List.filter_cons]
      simpa using ih.2
  | case2 c cs hne ih =>
    rw [collapse_cons_of_ne hne]
    by_cases hc : c = '\n'
    · subst hc
      rw [splitOnChar_cons_sep, splitOnChar_cons_sep]
      refine ⟨rfl, ?_⟩
      simp only [List.filter_cons]
      simpa using ih.2
    · rcases hA : splitOnChar '\n' cs with _ | ⟨l, ls⟩
      · exact absurd hA (splitOnChar_ne_nil '\n' cs)
      · rcases hB : splitOnChar '\n' (collapse cs) with _ | ⟨l', ls'⟩
        · exact absurd hB (splitOnChar_ne_nil '\n' (collapse cs))
        · have hl : l' = l := by
            have := ih.1
            rw [hA, hB] at this
            simpa using this
          rw [hl] at hB
          have hfil : ls'.filter (fun l => !l.isEmpty) = ls.filter (fun l => !l.isEmpty) := by
            have := ih.2
            rw [hA, hB] at this
            by_cases hl0 : l = []
            · subst hl0
              simpa using this
            · rw [List.filter_cons, List.filter_cons] at this
              have hne' : (!l.isEmpty) = true := by
                simp [List.isEmpty_iff, hl0]
              rw [hne'] at this
              simpa using this
          rw [splitOnChar_cons_ne hc hB, splitOnChar_cons_ne hc hA]
          constructor
          · rfl
          · rw [List.filter_cons, List.filter_cons]
            have : (!(c :: l).isEmpty) = true := by simp
            rw [this]
            simpa using hfil
  | case3 => exact ⟨rfl, rfl⟩

theorem find?_isH1_filter (L : List Str) :
    L.find? isH1 = (L.filter (fun l => !l.isEmpty)).find? isH1 := by
  induction L with
  | nil => rfl
  | cons l L' ih =>
    by_cases hl : l = []
    · subst hl
      have h1 : isH1 [] = false := by decide
      simp [List.filter_cons, List.find?_cons, h1, ih]
    · have hkeep : l.isEmpty = false := by simp [List.isEmpty_iff, hl]
      cases hH : isH1 l
      · simp [List.filter_cons, List.find?_cons, hkeep, hH, ih]
      · simp [List.filter_cons, List.find?_cons, hkeep, hH]

theorem titleLine_collapse (s : Str) : titleLine (collapse s) = titleLine s := by
  rw [titleLine, titleLine, find?_isH1_filter (splitOnChar '\n' (collapse s)),
    (collapse_lines s).2, ← find?_isH1_filter]

/-! ## Lemmas about stripping -/

theorem dropWhile_idem (p : Char → Bool) (l : Str) :
    (l.dropWhile p).dropWhile p = l.dropWhile p := by
  induction l with
  | nil => rfl
  | cons x xs ih =>
    cases hx : p x
    · simp [List.dropWhile_cons, hx]
    · simp [List.dropWhile_cons, hx, ih]

theorem dropWhile_of_head? {p : Char → Bool} {l : Str} {a : Char}
    (h : l.head? = some a) (ha : p a = false) : l.dropWhile p = l := by
  cases l with
  | nil => simp at h
  | cons x xs =>
    have : x = a := by simpa using h
    subst this
    simp [List.dropWhile_cons, ha]

theorem head?_of_dropWhile_self {p : Char → Bool} {l : Str}
    (h : l.dropWhile p = l) (hne : l ≠ []) : ∃ a, l.head? = some a ∧ p a = false := by
  cases l with
  | nil => exact absurd rfl hne
  | cons x xs =>
    refine ⟨x, rfl, ?_⟩
    cases hx : p x
    · rfl
    · exfalso
      rw [List.dropWhile_cons, hx] at h
      simp only [if_true] at h
      have hlen := (List.dropWhile_sublist (l := xs) p).length_le
      rw [h] at hlen
      simp at hlen

theorem head?_of_lstrip {s : Str} {a : Char} (h : (lstrip s).head? = some a) :
    wsp a = false := by
  obtain ⟨b, hb, hall⟩ := head?_of_dropWhile_self (dropWhile_idem wsp s)
    (by intro hh; rw [lstrip] at h; rw [hh] at h; simp at h)
  rw [lstrip] at h
  rw [h] at hb
  injection hb with hb
  rw [← hb] at hall
  exact hall

theorem rstrip_decomp (s : Str) : ∃ b, s = rstrip s ++ b ∧ b.all wsp = true := by
  refine ⟨(((s.reverse).takeWhile wsp)).reverse, ?_, ?_⟩
  · rw [rstrip]
    rw [← List.reverse_append, List.takeWhile_append_dropWhile, List.reverse_reverse]
  · rw [List.all_eq_true]
    intro x hx
    rw [List.mem_reverse] at hx
    exact List.mem_takeWhile_imp hx

theorem rstrip_head? (s : Str) : rstrip s = [] ∨ (rstrip s).head? = s.head? := by
  obtain ⟨b, hb, _⟩ := rstrip_decomp s
  rcases hA : rstrip s with _ | ⟨x, xs⟩
  · exact Or.inl rfl
  · right
    conv_rhs => rw [hb]
    rw [hA]
    simp

theorem rstrip_of_getLast? {s : Str} {a : Char} (h : s.getLast? = some a)
    (ha : wsp a = false) : rstrip s = s := by
  rw [rstrip, dropWhile_of_head? (by rw [List.head?_reverse]; exact h) ha,
    List.reverse_reverse]

theorem getLast?_of_rstrip_self {s : Str} (h : rstrip s = s) (hne : s ≠ []) :
    ∃ a, s.getLast? = some a ∧ wsp a = false := by
  have hrev : s.reverse.dropWhile wsp = s.reverse := by
    have := congrArg List.reverse h
    rw [rstrip, List.reverse_reverse] at this
    exact this
  obtain ⟨a, ha, hw⟩ := head?_of_dropWhile_self hrev (by simpa using hne)
  rw [List.head?_reverse] at ha
  exact ⟨a, ha, hw⟩

theorem rstrip_idem (s : Str) : rstrip (rstrip s) = rstrip s := by
  rw [rstrip, rstrip, List.reverse_reverse, dropWhile_idem]

theorem lstrip_pstrip (s : Str) : lstrip (pstrip s) = pstrip s := by
  rcases hA : pstrip s with _ | ⟨x, xs⟩
  · rfl
  · have hx : (lstrip s).head? = some x := by
      rcases rstrip_head? (lstrip s) with h | h
      · have h0 : pstrip s = [] := h
        rw [hA] at h0
        exact absurd h0 (by simp)
      · have h0 : (pstrip s).head? = (lstrip s).head? := h
        rw [hA] at h0
        exact h0.symm
    have hw : wsp x = false := head?_of_lstrip hx
    simp [lstrip, List.dropWhile_cons, hw]

theorem rstrip_pstrip (s : Str) : rstrip (pstrip s) = pstrip s := rstrip_idem (lstrip s)

theorem isPrefix_rstrip {p w : Str} {a : Char} (hp : p <+: w)
    (hlast : p.getLast? = some a) (ha : wsp a = false) : p <+: rstrip w := by
  obtain ⟨b, hb, hall⟩ := rstrip_decomp w
  have hAw : rstrip w <+: w := ⟨b, hb.symm⟩
  by_cases hlen : p.length ≤ (rstrip w).length
  · exact List.prefix_of_prefix_length_le hp hAw hlen
  · exfalso
    have hAp : rstrip w <+: p := List.prefix_of_prefix_length_le hAw hp (by omega)
    obtain ⟨q, hq⟩ := hAp
    have hqne : q ≠ [] := by
      intro hqe
      rw [hqe, List.append_nil] at hq
      rw [hq] at hlen
      omega
    have hqb : q <+: b := by
      have : rstrip w ++ q <+: rstrip w ++ b := by rw [hq, ← hb]; exact hp
      exact (List.prefix_append_right_inj _).mp this
    have hlq : q.getLast? = some a := by
      rw [← hq] at hlast
      rw [List.getLast?_append] at hlast
      rcases hq' : q.getLast? with _ | x
      · rw [List.getLast?_eq_none_iff] at hq'
        exact absurd hq' hqne
      · rw [hq'] at hlast
        simpa using hlast
    have hamem : a ∈ b := hqb.subset (List.mem_of_getLast?_eq_some hlq)
    rw [List.all_eq_true] at hall
    rw [hall a hamem] at ha
    simp at ha

/-! ## Lemmas about h1 lines and title replacement -/

theorem isH1_nil : isH1 [] = false := by decide

theorem mem_hash_of_isH1 {l : Str} (h : isH1 l = true) : '#' ∈ l := by
  rw [isH1, List.isPrefixOf_iff_prefix] at h
  exact h.subset (by decide)

theorem isH1_ne_nil {l : Str} (h : isH1 l = true) : l ≠ [] := by
  intro he
  rw [he, isH1_nil] at h
  simp at h

theorem not_all_wsp_of_isH1 {l : Str} (h : isH1 l = true) : ¬ l.all wsp = true := by
  intro hall
  have hw := (List.all_eq_true.mp hall) '#' (mem_hash_of_isH1 h)
  simp [wsp] at hw

theorem isH1_plaidTitle (c : Str) : isH1 (plaidTitle c) = true := by
  rw [isH1, List.isPrefixOf_iff_prefix]
  exact ⟨c ++ str " + Plaid // Solutions Guide", rfl⟩

theorem nl_not_mem_plaidTitle {c : Str} (hc : '\n' ∉ c) : '\n' ∉ plaidTitle c := by
  intro h
  rw [plaidTitle] at h
  rcases List.mem_cons.mp h with h | h
  · simp at h
  rcases List.mem_cons.mp h with h | h
  · simp at h
  rcases List.mem_append.mp h with h | h
  · exact hc h
  · revert h
    decide

theorem getLast?_plaidTitle (c : Str) : (plaidTitle c).getLast? = some 'e' := by
  have hrw : plaidTitle c = ('#' :: ' ' :: c) ++ str " + Plaid // Solutions Guide" := by
    simp [plaidTitle]
  rw [hrw, List.getLast?_append]
  rfl

theorem rstrip_plaidTitle (c : Str) : rstrip (plaidTitle c) = plaidTitle c :=
  rstrip_of_getLast? (getLast?_plaidTitle c) (by decide)

theorem find?_replaceFirstH1 {L : List Str} (c : Str) (h : L.any isH1 = true) :
    (replaceFirstH1 L c).find? isH1 = some (plaidTitle c) := by
  induction L with
  | nil => simp at h
  | cons l ls ih =>
    cases hl : isH1 l
    · have h' : ls.any isH1 = true := by
        rw [List.any_cons, hl] at h
        simpa using h
      simp only [replaceFirstH1, hl]
      rw [if_neg (by simp), List.find?_cons_of_neg _ (by simp [hl])]
      exact ih h'
    · simp only [replaceFirstH1, hl]
      rw [if_pos trivial, List.find?_cons_of_pos _ (isH1_plaidTitle c)]

theorem replaceFirstH1_self {L : List Str} {c : Str}
    (h : L.find? isH1 = some (plaidTitle c)) : replaceFirstH1 L c = L := by
  induction L with
  | nil => simp at h
  | cons l ls ih =>
    cases hl : isH1 l
    · rw [List.find?_cons_of_neg _ (by simp [hl])] at h
      simp only [replaceFirstH1, hl]
      rw [if_neg (by simp), ih h]
    · rw [List.find?_cons_of_pos _ hl] at h
      have hlp : l = plaidTitle c := Option.some.inj h
      rw [hlp]
      simp [replaceFirstH1, isH1_plaidTitle c]

theorem nl_not_mem_replaceFirstH1 {L : List Str} {c : Str}
    (hL : ∀ l ∈ L, '\n' ∉ l) (hc : '\n' ∉ c) :
    ∀ l ∈ replaceFirstH1 L c, '\n' ∉ l := by
  induction L with
  | nil => simp [replaceFirstH1]
  | cons l ls ih =>
    intro x hx
    simp only [replaceFirstH1] at hx
    by_cases hl : isH1 l = true
    · rw [if_pos hl] at hx
      rcases List.mem_cons.mp hx with h | h
      · rw [h]; exact nl_not_mem_plaidTitle hc
      · exact hL x (List.mem_cons_of_mem l h)
    · rw [if_neg hl] at hx
      rcases List.mem_cons.mp hx with h | h
      · rw [h]; exact hL l (List.mem_cons_self l ls)
      · exact ih (fun y hy => hL y (List.mem_cons_of_mem l hy)) x h

theorem replaceFirstH1_ne_nil {L : List Str} {c : Str} (h : L ≠ []) :
    replaceFirstH1 L c ≠ [] := by
  cases L with
  | nil => exact absurd rfl h
  | cons l ls =>
    simp only [replaceFirstH1]
    split <;> simp

theorem head?_joinWith {l : Str} (hl : l ≠ []) (ls : List Str) (sep : Str) :
    (joinWith sep (l :: ls)).head? = l.head? := by
  cases ls with
  | nil => rfl
  | cons m ls' =>
    cases l with
    | nil => exact absurd rfl hl
    | cons a as => simp [joinWith, List.cons_append]

theorem some_or_eq {α : Type} (a : α) (x : Option α) : (some a).or x = some a := rfl

theorem rstrip_titleLine {w tl : Str} (h : titleLine w = some tl) (hrt : rstrip tl = tl) :
    titleLine (rstrip w) = some tl := by
  obtain ⟨b, hb, hall⟩ := rstrip_decomp w
  have hsplit : splitOnChar '\n' w = glue (splitOnChar '\n' (rstrip w)) (splitOnChar '\n' b) := by
    have hx := splitOnChar_append '\n' (rstrip w) b
    rw [← hb] at hx
    exact hx
  rcases hB : splitOnChar '\n' b with _ | ⟨m, ms⟩
  · exact absurd hB (splitOnChar_ne_nil _ _)
  · have hAne : splitOnChar '\n' (rstrip w) ≠ [] := splitOnChar_ne_nil _ _
    have hPla : splitOnChar '\n' (rstrip w) =
        (splitOnChar '\n' (rstrip w)).dropLast ++ [(splitOnChar '\n' (rstrip w)).getLast hAne] :=
      (List.dropLast_concat_getLast hAne).symm
    have hglue : glue (splitOnChar '\n' (rstrip w)) (m :: ms) =
        (splitOnChar '\n' (rstrip w)).dropLast ++
          ((splitOnChar '\n' (rstrip w)).getLast hAne ++ m) :: ms :=
      glue_eq_dropLast hAne m ms
    have hBws : ∀ l ∈ splitOnChar '\n' b, l.all wsp = true := by
      intro l hl
      rw [List.all_eq_true]
      intro x hx
      exact (List.all_eq_true.mp hall) x (mem_of_mem_splitOnChar hl hx)
    rw [titleLine, hsplit, hB, hglue, List.find?_append] at h
    rw [titleLine]
    conv_lhs => rw [hPla]
    rw [List.find?_append]
    rcases hP : List.find? isH1 (splitOnChar '\n' (rstrip w)).dropLast with _ | x
    · rw [hP, Option.none_or] at h
      rw [Option.none_or]
      cases hH : isH1 ((splitOnChar '\n' (rstrip w)).getLast hAne ++ m)
      · rw [List.find?_cons_of_neg _ (by simp [hH])] at h
        exfalso
        have htl_mem : tl ∈ ms := List.mem_of_find?_eq_some h
        have hisH1 : isH1 tl = true := List.find?_some h
        have htl_b : tl ∈ splitOnChar '\n' b := by
          rw [hB]
          exact List.mem_cons_of_mem m htl_mem
        exact not_all_wsp_of_isH1 hisH1 (hBws tl htl_b)
      · rw [List.find?_cons_of_pos _ hH] at h
        have heq : (splitOnChar '\n' (rstrip w)).getLast hAne ++ m = tl := Option.some.inj h
        have hm : m = [] := by
          by_contra hm
          have hisH1 : isH1 tl = true := by rw [← heq]; exact hH
          obtain ⟨a, hga, hwa⟩ := getLast?_of_rstrip_self hrt (isH1_ne_nil hisH1)
          rw [← heq, List.getLast?_append] at hga
          rcases hm' : m.getLast? with _ | y
          · rw [List.getLast?_eq_none_iff] at hm'
            exact hm hm'
          · rw [hm', some_or_eq] at hga
            have hya : y = a := Option.some.inj hga
            have hy_m : y ∈ m := List.mem_of_getLast?_eq_some hm'
            have hy_b : y ∈ b :=
              mem_of_mem_splitOnChar (by rw [hB]; exact List.mem_cons_self m ms) hy_m
            have hw := (List.all_eq_true.mp hall) y hy_b
            rw [hya, hwa] at hw
            simp at hw
        rw [hm, List.append_nil] at heq hH
        rw [List.find?_cons_of_pos _ hH, heq]
    · rw [hP, some_or_eq] at h
      rw [some_or_eq]
      exact h

/-! ## Structure of a post-processed guide -/

theorem isPrefix_titlePrefix_plaidTitle (c : Str) :
    ('#' :: ' ' :: c) <+: plaidTitle c :=
  ⟨str " + Plaid // Solutions Guide", by simp [plaidTitle]⟩

theorem no_nl_titlePrefix {c : Str} (hc1 : '\n' ∉ c) :
    ∀ x ∈ ('#' :: ' ' :: c), x ≠ '\n' := by
  intro x hx
  rcases List.mem_cons.mp hx with h | hx'
  · subst h; decide
  rcases List.mem_cons.mp hx' with h | hx''
  · subst h; decide
  · intro hn
    exact hc1 (hn ▸ hx'')

theorem getLast?_titlePrefix {c : Str} {a : Char} (hc2 : c ≠ [])
    (hla : c.getLast? = some a) : ('#' :: ' ' :: c).getLast? = some a := by
  rw [getLast?_cons_of_ne (by simp [hc2]), getLast?_cons_of_ne hc2]
  exact hla

theorem splitOnChar_head {sep x : Char} {s : Str} (hx : s.head? = some x)
    (hxs : ¬ x = sep) : ∃ l ls, splitOnChar sep s = (x :: l) :: ls := by
  cases s with
  | nil => simp at hx
  | cons y s' =>
    have hyx : y = x := by simpa using hx
    subst hyx
    rcases hE : splitOnChar sep s' with _ | ⟨l, ls⟩
    · exact absurd hE (splitOnChar_ne_nil sep s')
    · exact ⟨l, ls, splitOnChar_cons_ne hxs hE⟩

/-- After one round of post-processing (with a left-stripped input and a
well-behaved company name), the guide either starts with `"# " + companyName`
or its first h1 line is exactly the canonical title. -/
theorem post_prefix_or_title (t c : Str) (ht : lstrip t = t) (hc1 : '\n' ∉ c)
    (hc2 : c ≠ []) (hc3 : rstrip c = c) :
    ('#' :: ' ' :: c).isPrefixOf (post_process_guide t c) = true ∨
      titleLine (post_process_guide t c) = some (plaidTitle c) := by
  obtain ⟨a, hla, hwa⟩ := getLast?_of_rstrip_self hc3 hc2
  have hplast : ('#' :: ' ' :: c).getLast? = some a := getLast?_titlePrefix hc2 hla
  by_cases hp : ('#' :: ' ' :: c).isPrefixOf t = true
  · left
    have hpost : post_process_guide t c = pstrip (collapse t) := by
      simp [post_process_guide, fixTitle, hp]
    obtain ⟨rest, hrest⟩ := List.isPrefixOf_iff_prefix.mp hp
    have hct : collapse t = ('#' :: ' ' :: c) ++ collapse rest := by
      rw [← hrest]
      exact collapse_append_no_nl rest (no_nl_titlePrefix hc1)
    have hhead : (collapse t).head? = some '#' := by rw [hct]; rfl
    have hl : lstrip (collapse t) = collapse t :=
      dropWhile_of_head? hhead (by decide)
    have hpre : ('#' :: ' ' :: c) <+: collapse t := ⟨collapse rest, hct.symm⟩
    rw [hpost, pstrip, hl, List.isPrefixOf_iff_prefix]
    exact isPrefix_rstrip hpre hplast hwa
  · by_cases hh : (splitOnChar '\n' t).any isH1 = true
    · right
      have hpost : post_process_guide t c =
          pstrip (collapse (joinWith ['\n'] (replaceFirstH1 (splitOnChar '\n' t) c))) := by
        simp [post_process_guide, fixTitle, hp, hh]
      have hsplitv : splitOnChar '\n' (joinWith ['\n'] (replaceFirstH1 (splitOnChar '\n' t) c)) =
          replaceFirstH1 (splitOnChar '\n' t) c :=
        splitOnChar_joinWith
          (nl_not_mem_replaceFirstH1 (fun l hl => not_mem_of_mem_splitOnChar hl) hc1)
          (replaceFirstH1_ne_nil (splitOnChar_ne_nil '\n' t))
      have htitv : titleLine (joinWith ['\n'] (replaceFirstH1 (splitOnChar '\n' t) c)) =
          some (plaidTitle c) := by
        rw [titleLine, hsplitv]
        exact find?_replaceFirstH1 c hh
      have htne : t ≠ [] := by
        intro he
        subst he
        simp [splitOnChar, isH1_nil] at hh
      obtain ⟨a0, ha0, hwa0⟩ := head?_of_dropWhile_self ht htne
      have ha0nl : ¬ a0 = '\n' := by
        intro hn
        rw [hn] at hwa0
        simp [wsp] at hwa0
      obtain ⟨l0, ls0, hsplitt⟩ := splitOnChar_head ha0 ha0nl
      have hvhead : ∃ y, (joinWith ['\n']
          (replaceFirstH1 (splitOnChar '\n' t) c)).head? = some y ∧ wsp y = false := by
        rw [hsplitt]
        by_cases hH : isH1 (a0 :: l0) = true
        · refine ⟨'#', ?_, by decide⟩
          simp only [replaceFirstH1, if_pos hH]
          rw [head?_joinWith (isH1_ne_nil (isH1_plaidTitle c)) _ _]
          rw [plaidTitle]
          rfl
        · refine ⟨a0, ?_, hwa0⟩
          simp only [replaceFirstH1, if_neg hH]
          rw [head?_joinWith (by simp) _ _]
          rfl
      obtain ⟨y, hy, hwy⟩ := hvhead
      have hlc : lstrip (collapse (joinWith ['\n']
          (replaceFirstH1 (splitOnChar '\n' t) c))) =
          collapse (joinWith ['\n'] (replaceFirstH1 (splitOnChar '\n' t) c)) := by
        refine dropWhile_of_head? ?_ hwy
        rw [collapse_head?]
        exact hy
      rw [hpost, pstrip, hlc]
      refine rstrip_titleLine ?_ (rstrip_plaidTitle c)
      rw [titleLine_collapse]
      exact htitv
    · left
      have hpost : post_process_guide t c =
          pstrip (collapse (plaidTitle c ++ '\n' :: '\n' :: t)) := by
        simp [post_process_guide, fixTitle, hp, hh]
      have hct : collapse (plaidTitle c ++ '\n' :: '\n' :: t) =
          plaidTitle c ++ collapse ('\n' :: '\n' :: t) :=
        collapse_append_no_nl _ (fun x hx hn => nl_not_mem_plaidTitle hc1 (hn ▸ hx))
      have hhead : (collapse (plaidTitle c ++ '\n' :: '\n' :: t)).head? = some '#' := by
        rw [hct, plaidTitle]
        rfl
      have hl : lstrip (collapse (plaidTitle c ++ '\n' :: '\n' :: t)) =
          collapse (plaidTitle c ++ '\n' :: '\n' :: t) :=
        dropWhile_of_head? hhead (by decide)
      have hpre : plaidTitle c <+: collapse (plaidTitle c ++ '\n' :: '\n' :: t) :=
        ⟨collapse ('\n' :: '\n' :: t), hct.symm⟩
      rw [hpost, pstrip, hl, List.isPrefixOf_iff_prefix]
      exact (isPrefix_titlePrefix_plaidTitle c).trans
        (isPrefix_rstrip hpre (getLast?_plaidTitle c) (by decide))

/-- The second round of post-processing reduces to a bare newline collapse:
its title-normalisation step leaves the once-processed guide unchanged, and
the strip is a no-op on the already-stripped text. -/
theorem post_idem_eq_collapse (t c : Str) (ht : lstrip t = t) (hc1 : '\n' ∉ c)
    (hc2 : c ≠ []) (hc3 : rstrip c = c) :
    post_process_guide (post_process_guide t c) c = collapse (post_process_guide t c) := by
  have hul : lstrip (post_process_guide t c) = post_process_guide t c :=
    lstrip_pstrip _
  have hur : rstrip (post_process_guide t c) = post_process_guide t c :=
    rstrip_pstrip _
  have hfix : fixTitle (post_process_guide t c) c = post_process_guide t c := by
    rcases post_prefix_or_title t c ht hc1 hc2 hc3 with hp | htit
    · simp [fixTitle, hp]
    · by_cases hp2 : ('#' :: ' ' :: c).isPrefixOf (post_process_guide t c) = true
      · simp [fixTitle, hp2]
      · have hfind : (splitOnChar '\n' (post_process_guide t c)).find? isH1 =
            some (plaidTitle c) := htit
        have hany : (splitOnChar '\n' (post_process_guide t c)).any isH1 = true :=
          List.any_eq_true.mpr
            ⟨plaidTitle c, List.mem_of_find?_eq_some hfind, List.find?_some hfind⟩
        have hrepl : replaceFirstH1 (splitOnChar '\n' (post_process_guide t c)) c =
            splitOnChar '\n' (post_process_guide t c) := replaceFirstH1_self hfind
        simp only [fixTitle, if_neg hp2, if_pos hany]
        rw [hrepl, joinWith_splitOnChar]
  rcases hu : post_process_guide t c with _ | ⟨x, u'⟩
  · rw [← hu, post_process_guide, hfix, hu]
    rfl
  · rw [← hu]
    rw [post_process_guide, hfix]
    have hune : post_process_guide t c ≠ [] := by rw [hu]; simp
    obtain ⟨a1, ha1, hwa1⟩ := head?_of_dropWhile_self hul hune
    obtain ⟨a2, ha2, hwa2⟩ := getLast?_of_rstrip_self hur hune
    have hlcu : lstrip (collapse (post_process_guide t c)) =
        collapse (post_process_guide t c) :=
      dropWhile_of_head? (by rw [collapse_head?]; exact ha1) hwa1
    have hrcu : rstrip (collapse (post_process_guide t c)) =
        collapse (post_process_guide t c) :=
      rstrip_of_getLast? (by rw [collapse_getLast?]; exact ha2) hwa2
    rw [pstrip, hlcu, hrcu]

/-! ## Additional text lemmas for newline-containing company names -/

theorem head?_dropWhile {p : Char → Bool} {l : Str} {x : Char}
    (h : (l.dropWhile p).head? = some x) : p x = false := by
  induction l with
  | nil => simp at h
  | cons a as ih =>
    cases ha : p a
    · rw [List.dropWhile_cons, if_neg (by simp [ha])] at h
      have hax : a = x := by simpa using h
      rw [← hax]
      exact ha
    · rw [List.dropWhile_cons, if_pos (by simp [ha])] at h
      exact ih h

theorem mem_collapse_of_ne {x : Char} :
    ∀ {s : Str}, x ∈ s → x ≠ '\n' → x ∈ collapse s := by
  intro s
  induction s using collapse.induct with
  | case1 rest ih =>
    intro hx hne
    have hxr : x ∈ rest := by
      rcases List.mem_cons.mp hx with h | h
      · exact absurd h hne
      rcases List.mem_cons.mp h with h | h
      · exact absurd h hne
      rcases List.mem_cons.mp h with h | h
      · exact absurd h hne
      · exact h
    rw [collapse]
    exact List.mem_cons_of_mem _ (List.mem_cons_of_mem _ (ih hxr hne))
  | case2 c cs hne2 ih =>
    intro hx hxn
    rw [collapse_cons_of_ne hne2]
    rcases List.mem_cons.mp hx with h | h
    · rw [h]
      exact List.mem_cons_self _ _
    · exact List.mem_cons_of_mem _ (ih h hxn)
  | case3 =>
    intro hx _
    simp at hx

theorem mem_of_mem_collapse {x : Char} :
    ∀ {s : Str}, x ∈ collapse s → x ∈ s := by
  intro s
  induction s using collapse.induct with
  | case1 rest ih =>
    intro hx
    rw [collapse] at hx
    rcases List.mem_cons.mp hx with h | h
    · rw [h]
      exact List.mem_cons_self _ _
    rcases List.mem_cons.mp h with h | h
    · rw [h]
      exact List.mem_cons_of_mem _ (List.mem_cons_self _ _)
    · exact List.mem_cons_of_mem _ (List.mem_cons_of_mem _ (List.mem_cons_of_mem _ (ih h)))
  | case2 c cs hne ih =>
    intro hx
    rw [collapse_cons_of_ne hne] at hx
    rcases List.mem_cons.mp hx with h | h
    · rw [h]
      exact List.mem_cons_self _ _
    · exact List.mem_cons_of_mem _ (ih h)
  | case3 =>
    intro hx
    simp [collapse] at hx

theorem dropWhile_append_of_ne_nil {p : Char → Bool} {l1 : Str} (l2 : Str)
    (h : l1.dropWhile p ≠ []) :
    (l1 ++ l2).dropWhile p = l1.dropWhile p ++ l2 := by
  rw [List.dropWhile_append, if_neg (by simpa using h)]

theorem dropWhile_append_of_nil {p : Char → Bool} {l1 : Str} (l2 : Str)
    (h : l1.dropWhile p = []) :
    (l1 ++ l2).dropWhile p = l2.dropWhile p := by
  rw [List.dropWhile_append, if_pos (by simp [h])]

theorem rstrip_ne_nil_of_nonws {s : Str} (h : ∃ x ∈ s, wsp x = false) :
    rstrip s ≠ [] := by
  obtain ⟨x, hx, hw⟩ := h
  intro he
  rw [rstrip] at he
  have hrev : s.reverse.dropWhile wsp = [] := by
    have h2 := congrArg List.reverse he
    rwa [List.reverse_reverse, List.reverse_nil] at h2
  have h3 := List.dropWhile_eq_nil_iff.mp hrev x (List.mem_reverse.mpr hx)
  rw [h3] at hw
  simp at hw

theorem rstrip_append_of_nonws {B : Str} (A : Str) (h : ∃ x ∈ B, wsp x = false) :
    rstrip (A ++ B) = A ++ rstrip B := by
  have hdw : B.reverse.dropWhile wsp ≠ [] := by
    obtain ⟨x, hx, hw⟩ := h
    intro he
    have h3 := List.dropWhile_eq_nil_iff.mp he x (List.mem_reverse.mpr hx)
    rw [h3] at hw
    simp at hw
  rw [rstrip, rstrip, List.reverse_append, dropWhile_append_of_ne_nil _ hdw,
    List.reverse_append, List.reverse_reverse]

theorem rstrip_append_of_allws {B : Str} (A : Str) (h : ∀ x ∈ B, wsp x = true) :
    rstrip (A ++ B) = rstrip A := by
  have hdw : B.reverse.dropWhile wsp = [] :=
    List.dropWhile_eq_nil_iff.mpr (fun x hx => h x (List.mem_reverse.mp hx))
  rw [rstrip, rstrip, List.reverse_append, dropWhile_append_of_nil _ hdw]

theorem splitOnChar_append_sep_mid {sep : Char} (A z : Str) :
    splitOnChar sep (A ++ sep :: z) = splitOnChar sep A ++ splitOnChar sep z := by
  induction A with
  | nil =>
    rw [List.nil_append, splitOnChar_cons_sep]
    rfl
  | cons c A' ih =>
    by_cases hc : c = sep
    · subst hc
      rw [List.cons_append, splitOnChar_cons_sep, splitOnChar_cons_sep, ih, List.cons_append]
    · rcases hE : splitOnChar sep (A' ++ sep :: z) with _ | ⟨l, ls⟩
      · exact absurd hE (splitOnChar_ne_nil _ _)
      · rcases hA : splitOnChar sep A' with _ | ⟨m, ms⟩
        · exact absurd hA (splitOnChar_ne_nil _ _)
        · have hE2 : m :: (ms ++ splitOnChar sep z) = l :: ls := by
            rw [← List.cons_append, ← hA, ← ih, hE]
          injection hE2 with hm hms
          rw [List.cons_append, splitOnChar_cons_ne hc hE, splitOnChar_cons_ne hc hA,
            List.cons_append, hm, hms]

theorem joinWith_cons_ne_nil {x : Str} {B : List Str} (hB : B ≠ []) (sep : Char) :
    joinWith [sep] (x :: B) = x ++ sep :: joinWith [sep] B := by
  cases B with
  | nil => exact absurd rfl hB
  | cons b B' =>
    simp only [joinWith]
    rw [List.append_assoc]
    rfl

theorem joinWith_append_sep {A B : List Str} (hA : A ≠ []) (hB : B ≠ []) (sep : Char) :
    joinWith [sep] (A ++ B) = joinWith [sep] A ++ sep :: joinWith [sep] B := by
  induction A with
  | nil => exact absurd rfl hA
  | cons a A' ih =>
    cases A' with
    | nil =>
      rw [List.cons_append, List.nil_append, joinWith_cons_ne_nil hB sep]
      rfl
    | cons a2 A'' =>
      rw [List.cons_append, joinWith_cons_ne_nil (by simp) sep, ih (by simp),
        show joinWith [sep] (a :: a2 :: A'') = a ++ sep :: joinWith [sep] (a2 :: A'') from
          joinWith_cons_ne_nil (by simp) sep]
      simp [List.append_assoc]

theorem splitOnChar_joinWith_last {sep : Char} {A : List Str}
    (hA : ∀ l ∈ A, sep ∉ l) (x : Str) :
    splitOnChar sep (joinWith [sep] (A ++ [x])) = A ++ splitOnChar sep x := by
  induction A with
  | nil => rfl
  | cons a A' ih =>
    have ha : sep ∉ a := hA a (List.mem_cons_self a A')
    have h' : ∀ l ∈ A', sep ∉ l := fun l hl => hA l (List.mem_cons_of_mem a hl)
    rw [List.cons_append, joinWith_cons_ne_nil (by simp) sep,
      splitOnChar_append_sep ha, ih h', List.cons_append]

theorem find?_decomp {α : Type} {p : α → Bool} :
    ∀ {L : List α} {b : α}, L.find? p = some b →
      ∃ P S, L = P ++ b :: S ∧ ∀ x ∈ P, p x = false := by
  intro L
  induction L with
  | nil =>
    intro b h
    simp at h
  | cons a L' ih =>
    intro b h
    cases ha : p a
    · rw [List.find?_cons_of_neg _ (by simp [ha])] at h
      obtain ⟨P, S, hPS, hP⟩ := ih h
      refine ⟨a :: P, S, by rw [hPS, List.cons_append], ?_⟩
      intro x hx
      rcases List.mem_cons.mp hx with h' | h'
      · rw [h']
        exact ha
      · exact hP x h'
    · rw [List.find?_cons_of_pos _ ha] at h
      have hab : a = b := Option.some.inj h
      exact ⟨[], L', by rw [hab]; rfl, fun x hx => absurd hx (List.not_mem_nil x)⟩

theorem find?_prepend_not {α : Type} {p : α → Bool} {P : List α}
    (hP : ∀ x ∈ P, p x = false) {x : α} (hx : p x = true) (S : List α) :
    (P ++ x :: S).find? p = some x := by
  rw [List.find?_append, List.find?_eq_none.mpr (fun y hy => by simp [hP y hy]),
    Option.none_or, List.find?_cons_of_pos _ hx]

theorem replaceFirstH1_decomp {P : List Str} {L : Str} {S : List Str} {c : Str}
    (hP : ∀ l ∈ P, isH1 l = false) (hL : isH1 L = true) :
    replaceFirstH1 (P ++ L :: S) c = P ++ plaidTitle c :: S := by
  induction P with
  | nil =>
    simp only [List.nil_append, replaceFirstH1, hL]
    rw [if_pos trivial]
  | cons a P' ih =>
    have ha : isH1 a = false := hP a (List.mem_cons_self a P')
    simp only [List.cons_append, replaceFirstH1, ha]
    rw [if_neg (by simp)]
    show a :: replaceFirstH1 (P' ++ L :: S) c = a :: (P' ++ plaidTitle c :: S)
    rw [ih (fun l hl => hP l (List.mem_cons_of_mem a hl))]

theorem collapse_append_of_getLast {a : Char} (ha : a ≠ '\n') (B : Str) :
    ∀ {A : Str}, A.getLast? = some a → collapse (A ++ B) = collapse A ++ collapse B := by
  intro A
  induction A using collapse.induct with
  | case1 rest ih =>
    intro h
    have hrne : rest ≠ [] := by
      intro he
      rw [he] at h
      exact ha (Option.some.inj h.symm)
    have hgr : rest.getLast? = some a := by
      rw [getLast?_cons_of_ne (by simp), getLast?_cons_of_ne (by simp),
        getLast?_cons_of_ne hrne] at h
      exact h
    rw [List.cons_append, List.cons_append, List.cons_append, collapse]
    conv_rhs => rw [collapse]
    rw [ih hgr]
    rfl
  | case2 x xs hne ih =>
    intro h
    have hnotp : ∀ r, x = '\n' → xs ++ B = '\n' :: '\n' :: r → False := by
      intro r hx hxb
      subst hx
      cases xs with
      | nil =>
        exact ha (Option.some.inj h.symm)
      | cons y ys =>
        cases ys with
        | nil =>
          rw [List.cons_append, List.nil_append] at hxb
          injection hxb with hy hB2
          subst hy
          have hanl : a = '\n' := by
            rw [getLast?_cons_of_ne (by simp)] at h
            exact (Option.some.inj h).symm
          exact ha hanl
        | cons y2 ys2 =>
          rw [List.cons_append, List.cons_append] at hxb
          injection hxb with hy hxb2
          injection hxb2 with hy2 hxb3
          exact hne ys2 rfl (by rw [hy, hy2])
    rw [List.cons_append, collapse_cons_of_ne hnotp, collapse_cons_of_ne hne]
    cases xs with
    | nil => rfl
    | cons y ys =>
      rw [getLast?_cons_of_ne (by simp)] at h
      rw [ih h]
      rfl
  | case3 =>
    intro h
    simp at h

theorem isH1_flTitle (c : Str) : isH1 (flTitle c) = true := by
  rw [isH1, List.isPrefixOf_iff_prefix]
  exact ⟨c.takeWhile (fun x => x != '\n'), rfl⟩

theorem nl_not_mem_flTitle (c : Str) : '\n' ∉ flTitle c := by
  intro h
  rw [flTitle] at h
  rcases List.mem_cons.mp h with h | h
  · simp at h
  rcases List.mem_cons.mp h with h | h
  · simp at h
  · have h2 := List.mem_takeWhile_imp h
    simp at h2

theorem company_nl_decomp {c : Str} (hnl : '\n' ∈ c) (hc2 : c ≠ [])
    (hc3 : rstrip c = c) :
    ∃ c1, c = c.takeWhile (fun x => x != '\n') ++ '\n' :: c1 ∧ ∃ x ∈ c1, wsp x = false := by
  have hdw : c.dropWhile (fun x => x != '\n') ≠ [] := by
    intro he
    have h2 := List.dropWhile_eq_nil_iff.mp he '\n' hnl
    simp at h2
  rcases hD : c.dropWhile (fun x => x != '\n') with _ | ⟨h0, c1⟩
  · exact absurd hD hdw
  · have hh0 : h0 = '\n' := by
      have h3 := head?_dropWhile (p := fun x => x != '\n') (l := c) (by rw [hD]; rfl)
      simpa using h3
    subst hh0
    have hcc : c = c.takeWhile (fun x => x != '\n') ++ '\n' :: c1 := by
      rw [← hD]
      exact (List.takeWhile_append_dropWhile _ _).symm
    refine ⟨c1, hcc, ?_⟩
    obtain ⟨a, hla, hwa⟩ := getLast?_of_rstrip_self hc3 hc2
    rw [hcc, List.getLast?_append] at hla
    have hgl : ('\n' :: c1).getLast? = some a := by
      rcases hq : ('\n' :: c1).getLast? with _ | y
      · rw [List.getLast?_eq_none_iff] at hq
        simp at hq
      · rw [hq, some_or_eq] at hla
        exact hla
    have hmem : a ∈ '\n' :: c1 := List.mem_of_getLast?_eq_some hgl
    rcases List.mem_cons.mp hmem with h | h
    · rw [h] at hwa
      simp [wsp] at hwa
    · exact ⟨a, h, hwa⟩

theorem plaidTitle_nl_decomp {c c1 : Str}
    (hdec : c = c.takeWhile (fun x => x != '\n') ++ '\n' :: c1) :
    plaidTitle c = flTitle c ++ '\n' :: (c1 ++ str " + Plaid // Solutions Guide") := by
  rw [plaidTitle, flTitle]
  conv_lhs => rw [hdec]
  simp [List.cons_append, List.append_assoc]

theorem titleLine_strip_collapse_h1 {A z : Str} (hA1 : isH1 A = true)
    (hAnl : '\n' ∉ A) (hz : ∃ x ∈ z, wsp x = false) :
    titleLine (pstrip (collapse (A ++ '\n' :: z))) = some A := by
  have hAch : ∀ x ∈ A, x ≠ '\n' := fun x hx he => hAnl (he ▸ hx)
  have hcoll : collapse (A ++ '\n' :: z) = A ++ collapse ('\n' :: z) :=
    collapse_append_no_nl _ hAch
  obtain ⟨A', hA'⟩ := List.isPrefixOf_iff_prefix.mp hA1
  have hhd : (A ++ collapse ('\n' :: z)).head? = some '#' := by
    rw [← hA']
    rfl
  have hls : lstrip (collapse (A ++ '\n' :: z)) = collapse (A ++ '\n' :: z) := by
    rw [hcoll]
    exact dropWhile_of_head? hhd (by decide)
  obtain ⟨x, hx, hwx⟩ := hz
  have hxnl : x ≠ '\n' := by
    intro he
    rw [he] at hwx
    simp [wsp] at hwx
  have hxc : x ∈ collapse ('\n' :: z) :=
    mem_collapse_of_ne (List.mem_cons_of_mem _ hx) hxnl
  have hrs : rstrip (A ++ collapse ('\n' :: z)) = A ++ rstrip (collapse ('\n' :: z)) :=
    rstrip_append_of_nonws A ⟨x, hxc, hwx⟩
  have hne : rstrip (collapse ('\n' :: z)) ≠ [] :=
    rstrip_ne_nil_of_nonws ⟨x, hxc, hwx⟩
  have hhd2 : (rstrip (collapse ('\n' :: z))).head? = some '\n' := by
    rcases rstrip_head? (collapse ('\n' :: z)) with h | h
    · exact absurd h hne
    · rw [h, collapse_head?]
      rfl
  rcases hE : rstrip (collapse ('\n' :: z)) with _ | ⟨y, z2⟩
  · exact absurd hE hne
  · have hy : y = '\n' := by
      rw [hE] at hhd2
      simpa using hhd2
    subst hy
    rw [pstrip, hls, hcoll, hrs, hE, titleLine, splitOnChar_append_sep hAnl,
      List.find?_cons_of_pos _ hA1]

/-- First pass for a company name containing a newline: whatever branch the
title normalisation takes, the first h1 line of the post-processed guide is
the first line of the canonical title, `"# "` + companyName up to its first
newline. -/
theorem post_titleLine_nl (t c : Str) (ht : lstrip t = t) (hnl : '\n' ∈ c)
    (hc2 : c ≠ []) (hc3 : rstrip c = c) :
    titleLine (post_process_guide t c) = some (flTitle c) := by
  obtain ⟨c1, hdec, hc1w⟩ := company_nl_decomp hnl hc2 hc3
  have hfl1 : isH1 (flTitle c) = true := isH1_flTitle c
  have hflnl : '\n' ∉ flTitle c := nl_not_mem_flTitle c
  have hpt : plaidTitle c = flTitle c ++ '\n' :: (c1 ++ str " + Plaid // Solutions Guide") :=
    plaidTitle_nl_decomp hdec
  obtain ⟨w, hw, hww⟩ := hc1w
  by_cases hp : ('#' :: ' ' :: c).isPrefixOf t = true
  · have hpost : post_process_guide t c = pstrip (collapse t) := by
      simp [post_process_guide, fixTitle, hp]
    obtain ⟨rest, hrest⟩ := List.isPrefixOf_iff_prefix.mp hp
    have hshape : t = flTitle c ++ '\n' :: (c1 ++ rest) := by
      rw [← hrest, flTitle]
      conv_lhs => rw [hdec]
      simp [List.cons_append, List.append_assoc]
    rw [hpost, hshape]
    exact titleLine_strip_collapse_h1 hfl1 hflnl ⟨w, List.mem_append_left _ hw, hww⟩
  · by_cases hh : (splitOnChar '\n' t).any isH1 = true
    · have hpost : post_process_guide t c =
          pstrip (collapse (joinWith ['\n'] (replaceFirstH1 (splitOnChar '\n' t) c))) := by
        simp [post_process_guide, fixTitle, hp, hh]
      rcases hF : (splitOnChar '\n' t).find? isH1 with _ | L1
      · exfalso
        rw [List.any_eq_true] at hh
        obtain ⟨l, hl, hlH⟩ := hh
        exact (List.find?_eq_none.mp hF l hl) hlH
      obtain ⟨P1, S1, hPS, hPfree⟩ := find?_decomp hF
      have hL1 : isH1 L1 = true := List.find?_some hF
      have hrepl : replaceFirstH1 (splitOnChar '\n' t) c = P1 ++ plaidTitle c :: S1 := by
        rw [hPS]
        exact replaceFirstH1_decomp hPfree hL1
      have hP1nl : ∀ l ∈ P1, '\n' ∉ l := fun l hl =>
        not_mem_of_mem_splitOnChar (s := t) (by rw [hPS]; exact List.mem_append_left _ hl)
      rw [hpost, hrepl]
      cases P1 with
      | nil =>
        cases S1 with
        | nil =>
          rw [List.nil_append,
            show joinWith ['\n'] [plaidTitle c] = plaidTitle c from rfl, hpt]
          exact titleLine_strip_collapse_h1 hfl1 hflnl
            ⟨w, List.mem_append_left _ hw, hww⟩
        | cons s1 S1' =>
          rw [List.nil_append, joinWith_cons_ne_nil (by simp) '\n', hpt,
            List.append_assoc, List.cons_append]
          exact titleLine_strip_collapse_h1 hfl1 hflnl
            ⟨w, List.mem_append_left _ (List.mem_append_left _ hw), hww⟩
      | cons p0 P1' =>
        have htne : t ≠ [] := by
          intro he
          subst he
          simp [splitOnChar, isH1_nil] at hh
        obtain ⟨a0, ha0, hwa0⟩ := head?_of_dropWhile_self ht htne
        have ha0nl : ¬ a0 = '\n' := by
          intro hn
          rw [hn] at hwa0
          simp [wsp] at hwa0
        obtain ⟨l0, ls0, hsplitt⟩ := splitOnChar_head ha0 ha0nl
        have hp0 : p0 = a0 :: l0 := by
          rw [hPS, List.cons_append] at hsplitt
          injection hsplitt with h1 h2
        have hCgl : (joinWith ['\n'] ((p0 :: P1') ++ [plaidTitle c])).getLast? = some 'e' := by
          rw [joinWith_append_sep (by simp) (by simp) '\n', List.getLast?_append,
            show joinWith ['\n'] [plaidTitle c] = plaidTitle c from rfl,
            getLast?_cons_of_ne (isH1_ne_nil (isH1_plaidTitle c)), getLast?_plaidTitle,
            some_or_eq]
        have hChd : (joinWith ['\n'] ((p0 :: P1') ++ plaidTitle c :: S1)).head? = some a0 := by
          rw [List.cons_append, head?_joinWith (by rw [hp0]; simp) _ _, hp0]
          rfl
        have hsplitC : splitOnChar '\n' (joinWith ['\n'] ((p0 :: P1') ++ [plaidTitle c])) =
            (p0 :: P1') ++ flTitle c ::
              splitOnChar '\n' (c1 ++ str " + Plaid // Solutions Guide") := by
          rw [splitOnChar_joinWith_last hP1nl (plaidTitle c), hpt,
            splitOnChar_append_sep hflnl]
        have hCtitle : titleLine (collapse (joinWith ['\n'] ((p0 :: P1') ++ [plaidTitle c]))) =
            some (flTitle c) := by
          rw [titleLine_collapse, titleLine, hsplitC]
          exact find?_prepend_not hPfree hfl1 _
        cases S1 with
        | nil =>
          have hrc : rstrip (collapse (joinWith ['\n'] ((p0 :: P1') ++ [plaidTitle c]))) =
              collapse (joinWith ['\n'] ((p0 :: P1') ++ [plaidTitle c])) :=
            rstrip_of_getLast? (by rw [collapse_getLast?]; exact hCgl) (by decide)
          have hlc : lstrip (collapse (joinWith ['\n'] ((p0 :: P1') ++ [plaidTitle c]))) =
              collapse (joinWith ['\n'] ((p0 :: P1') ++ [plaidTitle c])) :=
            dropWhile_of_head? (by rw [collapse_head?]; exact hChd) hwa0
          rw [pstrip, hlc, hrc]
          exact hCtitle
        | cons s1 S1' =>
          have hvsplit : joinWith ['\n'] ((p0 :: P1') ++ plaidTitle c :: s1 :: S1') =
              joinWith ['\n'] ((p0 :: P1') ++ [plaidTitle c]) ++
                '\n' :: joinWith ['\n'] (s1 :: S1') := by
            rw [show (p0 :: P1') ++ plaidTitle c :: s1 :: S1' =
                ((p0 :: P1') ++ [plaidTitle c]) ++ s1 :: S1' from by simp,
              joinWith_append_sep (by simp) (by simp) '\n']
          have hcv : collapse (joinWith ['\n'] ((p0 :: P1') ++ plaidTitle c :: s1 :: S1')) =
              collapse (joinWith ['\n'] ((p0 :: P1') ++ [plaidTitle c])) ++
                collapse ('\n' :: joinWith ['\n'] (s1 :: S1')) := by
            rw [hvsplit]
            exact collapse_append_of_getLast (by decide) _ hCgl
          have hlc2 : lstrip (collapse (joinWith ['\n']
              ((p0 :: P1') ++ plaidTitle c :: s1 :: S1'))) =
              collapse (joinWith ['\n'] ((p0 :: P1') ++ plaidTitle c :: s1 :: S1')) :=
            dropWhile_of_head? (by rw [collapse_head?]; exact hChd) hwa0
          rw [pstrip, hlc2, hcv]
          by_cases hD : ∃ x ∈ ('\n' :: joinWith ['\n'] (s1 :: S1')), wsp x = false
          · obtain ⟨xd, hxd, hwxd⟩ := hD
            have hxdnl : xd ≠ '\n' := by
              intro he
              rw [he] at hwxd
              simp [wsp] at hwxd
            have hxdc : xd ∈ collapse ('\n' :: joinWith ['\n'] (s1 :: S1')) :=
              mem_collapse_of_ne hxd hxdnl
            have hra : rstrip (collapse (joinWith ['\n'] ((p0 :: P1') ++ [plaidTitle c])) ++
                collapse ('\n' :: joinWith ['\n'] (s1 :: S1'))) =
                collapse (joinWith ['\n'] ((p0 :: P1') ++ [plaidTitle c])) ++
                  rstrip (collapse ('\n' :: joinWith ['\n'] (s1 :: S1'))) :=
              rstrip_append_of_nonws _ ⟨xd, hxdc, hwxd⟩
            have hne2 : rstrip (collapse ('\n' :: joinWith ['\n'] (s1 :: S1'))) ≠ [] :=
              rstrip_ne_nil_of_nonws ⟨xd, hxdc, hwxd⟩
            have hh2 : (rstrip (collapse ('\n' :: joinWith ['\n'] (s1 :: S1')))).head? =
                some '\n' := by
              rcases rstrip_head? (collapse ('\n' :: joinWith ['\n'] (s1 :: S1'))) with h | h
              · exact absurd h hne2
              · rw [h, collapse_head?]
                rfl
            rcases hE2 : rstrip (collapse ('\n' :: joinWith ['\n'] (s1 :: S1'))) with _ | ⟨y2, z2⟩
            · exact absurd hE2 hne2
            · have hy2 : y2 = '\n' := by
                rw [hE2] at hh2
                simpa using hh2
              subst hy2
              rw [hra, hE2, titleLine, splitOnChar_append_sep_mid, List.find?_append,
                show (splitOnChar '\n'
                    (collapse (joinWith ['\n'] ((p0 :: P1') ++ [plaidTitle c])))).find? isH1 =
                  some (flTitle c) from hCtitle, some_or_eq]
          · have hall : ∀ x ∈ collapse ('\n' :: joinWith ['\n'] (s1 :: S1')), wsp x = true := by
              intro x hx
              by_contra hxx
              exact hD ⟨x, mem_of_mem_collapse hx, by simpa using hxx⟩
            have hra : rstrip (collapse (joinWith ['\n'] ((p0 :: P1') ++ [plaidTitle c])) ++
                collapse ('\n' :: joinWith ['\n'] (s1 :: S1'))) =
                rstrip (collapse (joinWith ['\n'] ((p0 :: P1') ++ [plaidTitle c]))) :=
              rstrip_append_of_allws _ hall
            have hrc : rstrip (collapse (joinWith ['\n'] ((p0 :: P1') ++ [plaidTitle c]))) =
                collapse (joinWith ['\n'] ((p0 :: P1') ++ [plaidTitle c])) :=
              rstrip_of_getLast? (by rw [collapse_getLast?]; exact hCgl) (by decide)
            rw [hra, hrc]
            exact hCtitle
    · have hpost : post_process_guide t c =
          pstrip (collapse (plaidTitle c ++ '\n' :: '\n' :: t)) := by
        simp [post_process_guide, fixTitle, hp, hh]
      rw [hpost, hpt, List.append_assoc, List.cons_append]
      exact titleLine_strip_collapse_h1 hfl1 hflnl
        ⟨w, List.mem_append_left _ (List.mem_append_left _ hw), hww⟩

/-- Second pass for a company name containing a newline: when the guide is
already stripped and its first h1 line is the canonical title's first line,
another round of post-processing keeps exactly that title line (the rewrite
may still fire, but it reinserts a title block starting with the same first
line). -/
theorem post_titleLine_nl_idem (u c : Str) (hul : lstrip u = u) (hur : rstrip u = u)
    (hnl : '\n' ∈ c) (hc2 : c ≠ []) (hc3 : rstrip c = c)
    (htit : titleLine u = some (flTitle c)) :
    titleLine (post_process_guide u c) = some (flTitle c) := by
  obtain ⟨c1, hdec, hc1w⟩ := company_nl_decomp hnl hc2 hc3
  have hfl1 : isH1 (flTitle c) = true := isH1_flTitle c
  have hflnl : '\n' ∉ flTitle c := nl_not_mem_flTitle c
  have hpt : plaidTitle c = flTitle c ++ '\n' :: (c1 ++ str " + Plaid // Solutions Guide") :=
    plaidTitle_nl_decomp hdec
  have hune : u ≠ [] := by
    intro he
    rw [he, show titleLine ([] : Str) = none from rfl] at htit
    simp at htit
  obtain ⟨a1, ha1, hwa1⟩ := head?_of_dropWhile_self hul hune
  obtain ⟨a2, ha2, hwa2⟩ := getLast?_of_rstrip_self hur hune
  by_cases hp : ('#' :: ' ' :: c).isPrefixOf u = true
  · have hpost : post_process_guide u c = pstrip (collapse u) := by
      simp [post_process_guide, fixTitle, hp]
    have hlc : lstrip (collapse u) = collapse u :=
      dropWhile_of_head? (by rw [collapse_head?]; exact ha1) hwa1
    have hrc : rstrip (collapse u) = collapse u :=
      rstrip_of_getLast? (by rw [collapse_getLast?]; exact ha2) hwa2
    rw [hpost, pstrip, hlc, hrc, titleLine_collapse]
    exact htit
  · have hfind : (splitOnChar '\n' u).find? isH1 = some (flTitle c) := htit
    have hany : (splitOnChar '\n' u).any isH1 = true :=
      List.any_eq_true.mpr ⟨flTitle c, List.mem_of_find?_eq_some hfind, List.find?_some hfind⟩
    have hpost : post_process_guide u c =
        pstrip (collapse (joinWith ['\n'] (replaceFirstH1 (splitOnChar '\n' u) c))) := by
      simp [post_process_guide, fixTitle, hp, hany]
    obtain ⟨P, S, hPS, hPfree⟩ := find?_decomp hfind
    have hrepl : replaceFirstH1 (splitOnChar '\n' u) c = P ++ plaidTitle c :: S := by
      rw [hPS]
      exact replaceFirstH1_decomp hPfree hfl1
    have hPnl : ∀ l ∈ P, '\n' ∉ l := fun l hl =>
      not_mem_of_mem_splitOnChar (s := u) (by rw [hPS]; exact List.mem_append_left _ hl)
    have hSnl : ∀ l ∈ S, '\n' ∉ l := fun l hl =>
      not_mem_of_mem_splitOnChar (s := u)
        (by rw [hPS]; exact List.mem_append_right _ (List.mem_cons_of_mem _ hl))
    rw [hpost, hrepl]
    have hvhd : ∃ y, (joinWith ['\n'] (P ++ plaidTitle c :: S)).head? = some y ∧
        wsp y = false := by
      cases P with
      | nil =>
        refine ⟨'#', ?_, by decide⟩
        rw [List.nil_append, head?_joinWith (isH1_ne_nil (isH1_plaidTitle c)) _ _, plaidTitle]
        rfl
      | cons p0 P' =>
        have ha1nl : ¬ a1 = '\n' := by
          intro hn
          rw [hn] at hwa1
          simp [wsp] at hwa1
        obtain ⟨l0, ls0, hsp⟩ := splitOnChar_head ha1 ha1nl
        have hp0 : p0 = a1 :: l0 := by
          rw [hPS, List.cons_append] at hsp
          injection hsp with h1 h2
        refine ⟨a1, ?_, hwa1⟩
        rw [List.cons_append, head?_joinWith (by rw [hp0]; simp) _ _, hp0]
        rfl
    obtain ⟨y, hy, hwy⟩ := hvhd
    have hlc : lstrip (collapse (joinWith ['\n'] (P ++ plaidTitle c :: S))) =
        collapse (joinWith ['\n'] (P ++ plaidTitle c :: S)) :=
      dropWhile_of_head? (by rw [collapse_head?]; exact hy) hwy
    have hvgl : ∃ z, (joinWith ['\n'] (P ++ plaidTitle c :: S)).getLast? = some z ∧
        wsp z = false := by
      cases S with
      | nil =>
        refine ⟨'e', ?_, by decide⟩
        cases P with
        | nil =>
          rw [List.nil_append, show joinWith ['\n'] [plaidTitle c] = plaidTitle c from rfl]
          exact getLast?_plaidTitle c
        | cons p0 P' =>
          rw [joinWith_append_sep (by simp) (by simp) '\n', List.getLast?_append,
            show joinWith ['\n'] [plaidTitle c] = plaidTitle c from rfl,
            getLast?_cons_of_ne (isH1_ne_nil (isH1_plaidTitle c)), getLast?_plaidTitle,
            some_or_eq]
      | cons s0 S' =>
        refine ⟨a2, ?_, hwa2⟩
        have hv2 : joinWith ['\n'] (P ++ plaidTitle c :: s0 :: S') =
            joinWith ['\n'] (P ++ [plaidTitle c]) ++ '\n' :: joinWith ['\n'] (s0 :: S') := by
          rw [show P ++ plaidTitle c :: s0 :: S' = (P ++ [plaidTitle c]) ++ s0 :: S' from
              by simp,
            joinWith_append_sep (by simp) (by simp) '\n']
        have hu2 : u = joinWith ['\n'] (P ++ [flTitle c]) ++
            '\n' :: joinWith ['\n'] (s0 :: S') := by
          conv_lhs => rw [← joinWith_splitOnChar '\n' u, hPS]
          rw [show P ++ flTitle c :: s0 :: S' = (P ++ [flTitle c]) ++ s0 :: S' from by simp,
            joinWith_append_sep (by simp) (by simp) '\n']
        have hg2 : ('\n' :: joinWith ['\n'] (s0 :: S')).getLast? = some a2 := by
          have ha2' := ha2
          rw [hu2, List.getLast?_append] at ha2'
          rcases hq : ('\n' :: joinWith ['\n'] (s0 :: S')).getLast? with _ | zz
          · rw [List.getLast?_eq_none_iff] at hq
            simp at hq
          · rw [hq, some_or_eq] at ha2'
            exact ha2'
        rw [hv2, List.getLast?_append, hg2, some_or_eq]
    obtain ⟨zl, hzl, hwzl⟩ := hvgl
    have hrc : rstrip (collapse (joinWith ['\n'] (P ++ plaidTitle c :: S))) =
        collapse (joinWith ['\n'] (P ++ plaidTitle c :: S)) :=
      rstrip_of_getLast? (by rw [collapse_getLast?]; exact hzl) hwzl
    rw [pstrip, hlc, hrc, titleLine_collapse]
    cases S with
    | nil =>
      rw [titleLine, splitOnChar_joinWith_last hPnl (plaidTitle c), hpt,
        splitOnChar_append_sep hflnl]
      exact find?_prepend_not hPfree hfl1 _
    | cons s0 S' =>
      have hv2 : joinWith ['\n'] (P ++ plaidTitle c :: s0 :: S') =
          joinWith ['\n'] (P ++ [plaidTitle c]) ++ '\n' :: joinWith ['\n'] (s0 :: S') := by
        rw [show P ++ plaidTitle c :: s0 :: S' = (P ++ [plaidTitle c]) ++ s0 :: S' from
            by simp,
          joinWith_append_sep (by simp) (by simp) '\n']
      rw [hv2, titleLine, splitOnChar_append_sep_mid, List.find?_append,
        show (splitOnChar '\n' (joinWith ['\n'] (P ++ [plaidTitle c]))).find? isH1 =
            some (flTitle c) from by
          rw [splitOnChar_joinWith_last hPnl (plaidTitle c), hpt,
            splitOnChar_append_sep hflnl]
          exact find?_prepend_not hPfree hfl1 _,
        some_or_eq]

/-! ## C5 — idempotence of title normalisation -/

/-- Claim C5 asserts title-normalisation idempotence for every input.  It
fails when the input starts with whitespace: stripping can expose a line
beginning with `"# "` that preceded the first h1 line of the raw input, and
the second pass then rewrites a different line.  With input
`"  # Intro\n# Title\nbody"` and company `"Acme"`, the first pass rewrites
`"# Title"` and strips the leading blanks, making `"# Intro"` the first h1
line; the second pass rewrites `"# Intro"`, changing the title line. -/
theorem C5_counterexample :
    titleLine (post_process_guide
        (post_process_guide (str "  # Intro\n# Title\nbody") (str "Acme")) (str "Acme")) ≠
      titleLine (post_process_guide (str "  # Intro\n# Title\nbody") (str "Acme")) := by
  decide

/-- Amended claim C5: for every input text without leading whitespace and
every company name that is non-empty and has no trailing whitespace, the
title line (the first line starting with `"# "`) of
`postProcessGuide (postProcessGuide text)` equals the title line of
`postProcessGuide text`.  For a newline-free company name the second pass
leaves the document untouched up to the newline collapse; for a company name
containing a newline the second pass may rewrite the document again, but the
first h1 line it produces is the canonical title's first line both times. -/
theorem C5_title_idempotent (text company_name : Str) (ht : lstrip text = text)
    (hc2 : company_name ≠ []) (hc3 : rstrip company_name = company_name) :
    titleLine (post_process_guide (post_process_guide text company_name) company_name) =
      titleLine (post_process_guide text company_name) := by
  by_cases hnl : '\n' ∈ company_name
  · have h1 := post_titleLine_nl text company_name ht hnl hc2 hc3
    have h2 := post_titleLine_nl_idem (post_process_guide text company_name) company_name
      (lstrip_pstrip _) (rstrip_pstrip _) hnl hc2 hc3 h1
    rw [h2, h1]
  · rw [post_idem_eq_collapse text company_name ht hnl hc2 hc3, titleLine_collapse]

/-- Witness for C5 (amended). -/
theorem C5_witness :
    lstrip (str "x") = str "x" ∧ str "A" ≠ [] ∧ rstrip (str "A") = str "A" ∧
      titleLine (post_process_guide (post_process_guide (str "x") (str "A")) (str "A")) =
        titleLine (post_process_guide (str "x") (str "A")) :=
  ⟨by decide, by decide, by decide,
   C5_title_idempotent (str "x") (str "A") (by decide) (by decide) (by decide)⟩
